import Mathlib

/-!
# Structural equality of PDF objects (`pkg/pdfcpu/equal.go`)

A shallow embedding of the comparison routines of `equal.go`:
`equalPDFObjects`, `equalPDFArrays`, `equalPDFStreamDicts`, `equalFontNames`,
`equalPDFDicts` and `equalFontDicts`, followed by theorems about them.

Conventions of the embedding.

* A Go result `(bool, error)` is an `Outcome.ret ok err`; a Go run-time panic
  (a failed single-value type assertion, an index out of range) is
  `Outcome.runtimePanic`.
* The routines are mutually recursive through the resolver, and the source has
  no guard against cyclic references, so the recursive routines take a `fuel`
  argument that bounds the depth of nested calls: every call of
  `equalPDFObjects`, `equalPDFArrays`, `equalPDFDicts` or `equalPDFStreamDicts`
  uses one unit, and `none` means that the bound was reached.
* `xRefTable.Dereference` is not part of `equal.go`; it is a parameter
  `deref : Resolver`.
* The calls of `log.Debug` have no effect on what is returned and are left out.
-/

namespace Pdfcpu

/-! ## Data model -/

/-- The dynamic type of a value, as printed by `fmt.Sprintf("%T", o)`. The tag
`nil` is the one of the untyped `nil` interface value (the PDF null object). -/
inductive TypeTag where
  | nil
  | PDFIndirectRef
  | PDFName
  | PDFStringLiteral
  | PDFHexLiteral
  | PDFInteger
  | PDFFloat
  | PDFBoolean
  | PDFDict
  | PDFStreamDict
  | PDFArray
  deriving DecidableEq, Repr

/-- Modelled from the spec: the variants of `PDFObject`, whose type declarations
are not in `equal.go`. The variants are those named in `equal.go`, plus the
indirect reference and the null object. A Name and the two kinds of String carry
text, an Integer an integer, a Boolean a flag; a Float is an "atomic number"
compared exactly, carried here as a rational. A dictionary is the list of its
entries in the order in which `range` visits them; a stream dictionary is a
dictionary with its field `Raw` (`none` is the `nil` slice), the only other
field that `equal.go` reads; bytes are naturals. -/
inductive PDFObject where
  | null
  | indirectRef (objectNumber generationNumber : Int)
  | name (s : String)
  | stringLiteral (s : String)
  | hexLiteral (s : String)
  | integer (i : Int)
  | float (x : ℚ)
  | boolean (b : Bool)
  | dict (entries : List (String × PDFObject))
  | streamDict (entries : List (String × PDFObject)) (raw : Option (List Nat))
  | array (elems : List PDFObject)

/-- The value of a `PDFDict`: the entries of its field `Dict`. -/
abbrev PDFDict := List (String × PDFObject)

/-- The value of a `PDFArray`. -/
abbrev PDFArray := List PDFObject

/-- The value of a `PDFStreamDict`: the embedded `PDFDict` and the field `Raw`. -/
structure PDFStreamDict where
  dict : PDFDict
  raw : Option (List Nat)

/-- The dynamic type of a value: `fmt.Sprintf("%T", o)`. -/
def typeOf : PDFObject → TypeTag
  | .null => .nil
  | .indirectRef _ _ => .PDFIndirectRef
  | .name _ => .PDFName
  | .stringLiteral _ => .PDFStringLiteral
  | .hexLiteral _ => .PDFHexLiteral
  | .integer _ => .PDFInteger
  | .float _ => .PDFFloat
  | .boolean _ => .PDFBoolean
  | .dict _ => .PDFDict
  | .streamDict _ _ => .PDFStreamDict
  | .array _ => .PDFArray

/-- An error value returned by a comparison: an error of the resolver, passed
on unchanged, or one of the three errors that `equal.go` creates. -/
inductive CmpError where
  | resolution (e : String)
  | unhandledCompare (t : TypeTag)
  | typeCastProblem
  | streamDictNotLoaded
  deriving DecidableEq, Repr

/-- What a call does: it returns `(ok, err)`, or it panics. -/
inductive Outcome where
  | ret (ok : Bool) (err : Option CmpError)
  | runtimePanic
  deriving DecidableEq, Repr

/-- The resolver `xRefTable.Dereference`: the value denoted, or a failure. -/
abbrev Resolver := PDFObject → Except String PDFObject

/-- The length of a dictionary: `len(d.Dict)`. -/
def dictLen (d : PDFDict) : Nat := d.length

/-- The map access `v, found := d.Dict[key]`. -/
def dictLookup (d : PDFDict) (key : String) : Option PDFObject :=
  match d with
  | [] => none
  | (k, v) :: rest => if k = key then some v else dictLookup rest key

/-! ## Font names -/

/-- Position of the first occurrence of the character `sep` in `s`, or `-1`:
`strings.Index(s, "+")` for `sep = '+'`. -/
def stringsIndex (s : List Char) (sep : Char) : Int :=
  match s with
  | [] => -1
  | c :: rest =>
    if c = sep then 0
    else
      let i := stringsIndex rest sep
      if i < 0 then -1 else i + 1

/-- Lines 164-167 (and 169-172): `i := strings.Index(bf, "+")` and, when
`i > 0`, `bf = bf[i+1:]`. The separator is one byte long and never part of a
longer character, so slicing by characters and by bytes give the same text. -/
def ignorePrefix (bf : String) : String :=
  let i := stringsIndex bf.data '+'
  if i > 0 then ⟨bf.data.drop (i + 1).toNat⟩ else bf

/-- The routine `equalFontNames`. It makes no nested comparison. -/
def equalFontNames (deref : Resolver) (v1 v2 : PDFObject) : Outcome :=
  match deref v1 with
  | .error e => .ret false (some (.resolution e))
  | .ok v1 =>
    match v1 with
    | .name bf1 =>
      match deref v2 with
      | .error e => .ret false (some (.resolution e))
      | .ok v2 =>
        -- `bf2 := v2.(PDFName)` panics when `v2` is not a name; the test of
        -- `ok` that follows reads the flag of the first assertion, which is true.
        match v2 with
        | .name bf2 => .ret (decide (ignorePrefix bf1 = ignorePrefix bf2)) none
        | _ => .runtimePanic
    | _ => .ret false (some .typeCastProblem)

/-! ## The loops -/

/-- The loop of `equalPDFArrays` (lines 89-108) over the two arrays, `cmp`
being the call of `equalPDFObjects`. -/
def arrayLoop (cmp : PDFObject → PDFObject → Option Outcome) :
    List PDFObject → List PDFObject → Option Outcome
  | [], _ => some (.ret true none)
  | _ :: _, [] => some .runtimePanic
  | o1 :: rest1, o2 :: rest2 =>
    if typeOf o1 ≠ typeOf o2 then some (.ret false none)
    else
      match cmp o1 o2 with
      | none => none
      | some .runtimePanic => some .runtimePanic
      | some (.ret ok err) =>
        if err.isSome then some (.ret false err)
        else if !ok then some (.ret false none)
        else arrayLoop cmp rest1 rest2

/-- The keys with special treatment (line 196). -/
def isFontNameKey (key : String) : Bool :=
  key == "BaseFont" || key == "FontName" || key == "Name"

/-- The loop of `equalPDFDicts` (lines 187-223) over the entries of `d1` that
remain to be visited, `cmp` being the call of `equalPDFObjects`. -/
def dictLoop (cmp : PDFObject → PDFObject → Option Outcome) (deref : Resolver)
    (d2 : PDFDict) : List (String × PDFObject) → Option Outcome
  | [] => some (.ret true none)
  | (key, v1) :: rest =>
    match dictLookup d2 key with
    | none => some (.ret false none)
    | some v2 =>
      if isFontNameKey key then
        match equalFontNames deref v1 v2 with
        | .runtimePanic => some .runtimePanic
        | .ret ok err =>
          if err.isSome then some (.ret false err)
          else if !ok then some (.ret false none)
          else dictLoop cmp deref d2 rest
      else
        match cmp v1 v2 with
        | none => none
        | some .runtimePanic => some .runtimePanic
        | some (.ret ok err) =>
          if err.isSome then some (.ret false err)
          else if !ok then some (.ret false none)
          else dictLoop cmp deref d2 rest

/-- The comparison `bytes.Equal(a, b)`, in which a `nil` slice is an empty one. -/
def bytesEqual (a b : Option (List Nat)) : Bool :=
  decide (a.getD [] = b.getD [])

/-! ## The comparison routines -/

mutual

/-- The routine `equalPDFObjects`. -/
def equalPDFObjects (fuel : Nat) (deref : Resolver) (o1 o2 : PDFObject) : Option Outcome :=
  match fuel with
  | 0 => none
  | fuel + 1 =>
    match deref o1 with
    | .error e => some (.ret false (some (.resolution e)))
    | .ok o1 =>
      match deref o2 with
      | .error e => some (.ret false (some (.resolution e)))
      | .ok o2 =>
        if typeOf o1 ≠ typeOf o2 then some (.ret false none)
        else
          match o1, o2 with
          | .name a, .name b => some (.ret (decide (a = b)) none)
          | .stringLiteral a, .stringLiteral b => some (.ret (decide (a = b)) none)
          | .hexLiteral a, .hexLiteral b => some (.ret (decide (a = b)) none)
          | .integer a, .integer b => some (.ret (decide (a = b)) none)
          | .float a, .float b => some (.ret (decide (a = b)) none)
          | .boolean a, .boolean b => some (.ret (decide (a = b)) none)
          | .dict d1, .dict d2 => equalPDFDicts fuel deref d1 d2
          | .streamDict d1 raw1, .streamDict d2 raw2 =>
            equalPDFStreamDicts fuel deref ⟨d1, raw1⟩ ⟨d2, raw2⟩
          | .array arr1, .array arr2 => equalPDFArrays fuel deref arr1 arr2
          | o1, _ => some (.ret false (some (.unhandledCompare (typeOf o1))))

/-- The routine `equalPDFArrays`. -/
def equalPDFArrays (fuel : Nat) (deref : Resolver) (arr1 arr2 : PDFArray) : Option Outcome :=
  match fuel with
  | 0 => none
  | fuel + 1 =>
    if arr1.length ≠ arr2.length then some (.ret false none)
    else arrayLoop (fun o1 o2 => equalPDFObjects fuel deref o1 o2) arr1 arr2

/-- The routine `equalPDFStreamDicts`. The second operand of the test of line
124 is `sd2 == nil`, a test of the pointer, which is not `nil` there: line 115
has already read through it. -/
def equalPDFStreamDicts (fuel : Nat) (deref : Resolver) (sd1 sd2 : PDFStreamDict) :
    Option Outcome :=
  match fuel with
  | 0 => none
  | fuel + 1 =>
    match equalPDFDicts fuel deref sd1.dict sd2.dict with
    | none => none
    | some .runtimePanic => some .runtimePanic
    | some (.ret ok err) =>
      if err.isSome then some (.ret false err)
      else if !ok then some (.ret false none)
      else if sd1.raw.isNone || false then some (.ret false (some .streamDictNotLoaded))
      else some (.ret (bytesEqual sd1.raw sd2.raw) none)

/-- The routine `equalPDFDicts`. -/
def equalPDFDicts (fuel : Nat) (deref : Resolver) (d1 d2 : PDFDict) : Option Outcome :=
  match fuel with
  | 0 => none
  | fuel + 1 =>
    if dictLen d1 ≠ dictLen d2 then some (.ret false none)
    else dictLoop (fun v1 v2 => equalPDFObjects fuel deref v1 v2) deref d2 d1

end

/-- A pointer of type `*PDFDict`: `none` is `nil`, otherwise the address and the
dictionary stored at it. -/
abbrev DictPtr := Option (Nat × PDFDict)

/-- The routine `equalFontDicts`. The test `fd1 == fd2` compares the pointers. -/
def equalFontDicts (fuel : Nat) (deref : Resolver) (fd1 fd2 : DictPtr) : Option Outcome :=
  if fd1.map Prod.fst = fd2.map Prod.fst then some (.ret true none)
  else
    match fd1 with
    | none => some (.ret fd2.isNone none)
    | some (_, d1) =>
      match fd2 with
      | none => some (.ret false none)
      | some (_, d2) =>
        match equalPDFDicts fuel deref d1 d2 with
        | none => none
        | some .runtimePanic => some .runtimePanic
        | some (.ret ok err) =>
          if err.isSome then some (.ret false err) else some (.ret ok none)

/-! ## Notions used in the statements -/

/-- A resolver that returns every value that is not an indirect reference
unchanged. -/
def PassThrough (deref : Resolver) : Prop :=
  ∀ o, typeOf o ≠ .PDFIndirectRef → deref o = .ok o

/-- A resolver over a finite table of objects: a value that is not an indirect
reference denotes itself, a reference denotes the object stored under its
object number, and the lookup of a number that is not in the table fails. -/
def tableResolver (table : List (Int × PDFObject)) : Resolver := fun o =>
  match o with
  | .indirectRef nr _ =>
    match table.lookup nr with
    | some v => .ok v
    | none => .error "object not found"
  | o => .ok o

/-- The six shapes compared by `==` (lines 54-55). -/
def atomicShape : TypeTag → Bool
  | .PDFName | .PDFStringLiteral | .PDFHexLiteral
  | .PDFInteger | .PDFFloat | .PDFBoolean => true
  | _ => false

/-- The nine shapes for which `equalPDFObjects` has a case. -/
def knownShape : TypeTag → Bool
  | .PDFDict | .PDFStreamDict | .PDFArray => true
  | t => atomicShape t

/-- The comparison of two arrays as the specification words it, without the
check of the unresolved types: arrays of different lengths are unequal;
otherwise the elements are compared position by position, from left to right,
with the object comparator `cmp`; the first pair that errors gives that error,
the first pair that is unequal gives `false`, and all pairs equal give `true`. -/
def comparePositions (cmp : PDFObject → PDFObject → Option Outcome) :
    List PDFObject → List PDFObject → Option Outcome
  | [], [] => some (.ret true none)
  | o1 :: rest1, o2 :: rest2 =>
    match cmp o1 o2 with
    | none => none
    | some .runtimePanic => some .runtimePanic
    | some (.ret _ (some e)) => some (.ret false (some e))
    | some (.ret false none) => some (.ret false none)
    | some (.ret true none) => comparePositions cmp rest1 rest2
  | _, _ => some (.ret false none)

/-- The name without its subset tag, as the specification words it: a name in
which the first `+` has text before it loses everything up to and including
that `+`; a name with no `+`, or with its first `+` at position 0, is left
unchanged. -/
def stripSubsetTag (n : String) : String :=
  let tag := n.data.takeWhile (fun c => c != '+')
  let rest := n.data.dropWhile (fun c => c != '+')
  match tag, rest with
  | _ :: _, _ :: afterPlus => ⟨afterPlus⟩
  | _, _ => n

/-- The keys of a dictionary. -/
def dictKeys (d : PDFDict) : List String := d.map Prod.fst

/-- The comparison made for the two values under one key: `equalFontNames` for
the keys `BaseFont`, `FontName` and `Name`, `equalPDFObjects` for the others. -/
def compareField (fuel : Nat) (deref : Resolver) (key : String) (v1 v2 : PDFObject) :
    Option Outcome :=
  if isFontNameKey key then some (equalFontNames deref v1 v2)
  else equalPDFObjects fuel deref v1 v2

/-- An idempotent resolver: what it returns, it returns unchanged. -/
def Idempotent (deref : Resolver) : Prop :=
  ∀ o v, deref o = .ok v → deref v = .ok v

/-- The value resolves to a Name. -/
def resolvesToName (deref : Resolver) (v : PDFObject) : Bool :=
  match deref v with
  | .ok (.name _) => true
  | _ => false

/-- The entries of a well-formed dictionary: the keys are distinct (it is a
map), every value under `BaseFont`, `FontName` or `Name` resolves to a Name,
and every other value is well formed in the sense `wf`. -/
def wellFormedEntries (deref : Resolver) (wf : PDFObject → Bool) (d : PDFDict) : Bool :=
  decide (dictKeys d).Nodup &&
    d.all (fun kv => if isFontNameKey kv.1 then resolvesToName deref kv.2 else wf kv.2)

/-- A value that is well formed down to nesting depth `n`: it resolves, to one
of the nine known variants; the elements of an array and the values of a
dictionary are well formed down to depth `n - 1`; the payload of a stream is
loaded. That some depth is enough says that the value is acyclic. -/
def wellFormed : Nat → Resolver → PDFObject → Bool
  | 0, _, _ => false
  | n + 1, deref, o =>
    match deref o with
    | .error _ => false
    | .ok r =>
      match r with
      | .null => false
      | .indirectRef _ _ => false
      | .dict d => wellFormedEntries deref (wellFormed n deref) d
      | .streamDict d raw => raw.isSome && wellFormedEntries deref (wellFormed n deref) d
      | .array elems => elems.all (wellFormed n deref)
      | _ => true

/-- Every dictionary met within `n` steps of resolution from the value has
distinct keys. -/
def distinctKeysTo : Nat → Resolver → PDFObject → Bool
  | 0, _, _ => true
  | n + 1, deref, o =>
    match deref o with
    | .error _ => true
    | .ok r =>
      match r with
      | .dict d => decide (dictKeys d).Nodup && d.all (fun kv => distinctKeysTo n deref kv.2)
      | .streamDict d _ =>
        decide (dictKeys d).Nodup && d.all (fun kv => distinctKeysTo n deref kv.2)
      | .array elems => elems.all (distinctKeysTo n deref)
      | _ => true

/-- Every dictionary that can be reached from the value through the resolver
has distinct keys, as every Go map has. -/
def DistinctKeys (deref : Resolver) (o : PDFObject) : Prop :=
  ∀ n, distinctKeysTo n deref o = true

/-- Every stream met within `n` steps of resolution from the value has its
payload loaded. -/
def payloadsLoadedTo : Nat → Resolver → PDFObject → Bool
  | 0, _, _ => true
  | n + 1, deref, o =>
    match deref o with
    | .error _ => true
    | .ok r =>
      match r with
      | .dict d => d.all (fun kv => payloadsLoadedTo n deref kv.2)
      | .streamDict d raw => raw.isSome && d.all (fun kv => payloadsLoadedTo n deref kv.2)
      | .array elems => elems.all (payloadsLoadedTo n deref)
      | _ => true

/-- Every stream that can be reached from the value through the resolver has
its payload loaded, which the specification requires before a comparison. -/
def PayloadsLoaded (deref : Resolver) (o : PDFObject) : Prop :=
  ∀ n, payloadsLoadedTo n deref o = true

/-- The value `o` inside `n` nested arrays of one element. -/
def nestArray : Nat → PDFObject → PDFObject
  | 0, o => o
  | n + 1, o => .array [nestArray n o]

/-! ## Theorems -/

/-- A resolver that returns direct values unchanged makes `equalPDFObjects`
return `false` on two direct values of different dynamic types. -/
theorem equalPDFObjects_direct_mismatch (deref : Resolver) (hp : PassThrough deref)
    (o1 o2 : PDFObject) (h1 : typeOf o1 ≠ .PDFIndirectRef) (h2 : typeOf o2 ≠ .PDFIndirectRef)
    (hne : typeOf o1 ≠ typeOf o2) (fuel : Nat) :
    equalPDFObjects (fuel + 1) deref o1 o2 = some (.ret false none) := by
  simp [equalPDFObjects, hp o1 h1, hp o2 h2, hne]

/-- The loop of `equalPDFArrays` agrees with the comparison without the check
of the unresolved types whenever `cmp` itself gives `false` on every pair of
elements of different types. -/
theorem arrayLoop_eq_comparePositions (cmp : PDFObject → PDFObject → Option Outcome)
    (arr1 arr2 : List PDFObject) (hlen : arr1.length = arr2.length)
    (hcmp : ∀ o1 ∈ arr1, ∀ o2 ∈ arr2, typeOf o1 ≠ typeOf o2 →
      cmp o1 o2 = some (.ret false none)) :
    arrayLoop cmp arr1 arr2 = comparePositions cmp arr1 arr2 := by
  induction arr1 generalizing arr2 with
  | nil =>
    cases arr2 with
    | nil => simp [arrayLoop, comparePositions]
    | cons o2 rest2 => simp at hlen
  | cons o1 rest1 ih =>
    cases arr2 with
    | nil => simp at hlen
    | cons o2 rest2 =>
      have hrest : arrayLoop cmp rest1 rest2 = comparePositions cmp rest1 rest2 := by
        apply ih
        · simpa using hlen
        · intro a ha b hb hab
          exact hcmp a (List.mem_cons_of_mem _ ha) b (List.mem_cons_of_mem _ hb) hab
      by_cases hty : typeOf o1 = typeOf o2
      · simp only [arrayLoop, comparePositions, hty, ne_eq, not_true_eq_false, if_false]
        cases hc : cmp o1 o2 with
        | none => rfl
        | some r =>
          cases r with
          | runtimePanic => rfl
          | ret ok err =>
            cases err with
            | some e => simp
            | none => cases ok <;> simp [hrest]
      · have hfalse := hcmp o1 (List.mem_cons_self _ _) o2 (List.mem_cons_self _ _) hty
        simp [arrayLoop, comparePositions, hty, hfalse]

/-- What `stringsIndex` returns, in terms of the text before the first
occurrence of the separator. -/
theorem stringsIndex_spec (c : Char) (l : List Char) :
    (stringsIndex l c = -1 ∧ l.dropWhile (fun x => x != c) = []) ∨
    (stringsIndex l c = ((l.takeWhile (fun x => x != c)).length : Int) ∧
      ∃ rest, l.dropWhile (fun x => x != c) = c :: rest ∧
        l.drop ((l.takeWhile (fun x => x != c)).length + 1) = rest) := by
  induction l with
  | nil => left; simp [stringsIndex]
  | cons a rest ih =>
    by_cases hac : a = c
    · right
      subst hac
      simp [stringsIndex, List.takeWhile, List.dropWhile]
    · have hb : (a != c) = true := by simpa using hac
      rcases ih with ⟨h1, h2⟩ | ⟨h1, r, h2, h3⟩
      · left
        simp [stringsIndex, hac, h1, List.dropWhile_cons, hb, h2]
      · right
        have hnn : ¬ ((List.takeWhile (fun x => x != c) rest).length : Int) < 0 := by omega
        refine ⟨?_, r, ?_, ?_⟩
        · simp [stringsIndex, hac, h1, List.takeWhile_cons, hb, hnn]
        · simp [List.dropWhile_cons, hb, h2]
        · simp [List.takeWhile_cons, hb, h3]

/-- Lines 164-167 compute the name without its subset tag. -/
theorem ignorePrefix_eq_stripSubsetTag (n : String) : ignorePrefix n = stripSubsetTag n := by
  rcases stringsIndex_spec '+' n.data with ⟨h1, h2⟩ | ⟨h1, r, h2, h3⟩
  · simp only [ignorePrefix, stripSubsetTag, h1, h2]
    simp
  · simp only [ignorePrefix, stripSubsetTag, h1, h2]
    cases htw : List.takeWhile (fun x => x != '+') n.data with
    | nil => simp
    | cons a t =>
      have : (↑(a :: t).length + 1 : Int).toNat = (a :: t).length + 1 := by
        simp; omega
      rw [htw] at h3
      simp only [this, h3]
      simp

/-- A name made of a non-empty tag without `+`, a `+` and a rest loses the tag
and the `+`. -/
theorem ignorePrefix_tagged (t n : String) (ht : t.data ≠ []) (htp : '+' ∉ t.data) :
    ignorePrefix (t ++ "+" ++ n) = n := by
  rw [ignorePrefix_eq_stripSubsetTag]
  have hall : ∀ a ∈ t.data, (fun c => c != '+') a = true := by
    intro a ha
    have : a ≠ '+' := fun h => htp (h ▸ ha)
    simpa using this
  have hdata : (t ++ "+" ++ n).data = t.data ++ ('+' :: n.data) := by
    simp [String.data_append]
  have htake : List.takeWhile (fun c => c != '+') (t.data ++ ('+' :: n.data)) = t.data := by
    rw [List.takeWhile_append_of_pos hall]
    simp [List.takeWhile_cons]
  have hdrop : List.dropWhile (fun c => c != '+') (t.data ++ ('+' :: n.data)) = '+' :: n.data := by
    rw [List.dropWhile_append_of_pos hall]
    simp [List.dropWhile_cons]
  simp only [stripSubsetTag, hdata, htake, hdrop]
  cases htd : t.data with
  | nil => exact absurd htd ht
  | cons a r => rfl

/-- A name without `+` is left unchanged. -/
theorem ignorePrefix_no_plus (n : String) (hn : '+' ∉ n.data) : ignorePrefix n = n := by
  rw [ignorePrefix_eq_stripSubsetTag]
  have hall : ∀ a ∈ n.data, (fun c => c != '+') a = true := by
    intro a ha
    have : a ≠ '+' := fun h => hn (h ▸ ha)
    simpa using this
  have hdrop : List.dropWhile (fun c => c != '+') n.data = [] :=
    List.dropWhile_eq_nil_iff.mpr hall
  simp only [stripSubsetTag, hdrop]
  split <;> simp_all

/-- The keys with special treatment are `BaseFont`, `FontName` and `Name`. -/
theorem isFontNameKey_iff (k : String) :
    isFontNameKey k = true ↔ k ∈ ["BaseFont", "FontName", "Name"] := by
  simp [isFontNameKey, or_assoc]

/-- A name with a tag and a `+` in front is another name. -/
theorem tagged_ne (t n : String) : t ++ "+" ++ n ≠ n := by
  intro h
  have := congrArg String.length h
  simp [String.length_append] at this
  exact absurd this.2 (by decide)

/-- An entry found by the map access is an entry of the dictionary. -/
theorem dictLookup_mem (d : PDFDict) (k : String) (v : PDFObject)
    (h : dictLookup d k = some v) : (k, v) ∈ d := by
  induction d with
  | nil => simp [dictLookup] at h
  | cons kv rest ih =>
    obtain ⟨k', v'⟩ := kv
    by_cases hk : k' = k
    · simp [dictLookup, hk] at h
      simp [hk, h]
    · simp [dictLookup, hk] at h
      exact List.mem_cons_of_mem _ (ih h)

/-- With distinct keys, the map access finds every entry. -/
theorem dictLookup_of_mem (d : PDFDict) (hn : (dictKeys d).Nodup) (k : String) (v : PDFObject)
    (h : (k, v) ∈ d) : dictLookup d k = some v := by
  induction d with
  | nil => simp at h
  | cons kv rest ih =>
    obtain ⟨k', v'⟩ := kv
    simp only [dictKeys, List.map_cons, List.nodup_cons] at hn
    rcases List.mem_cons.mp h with heq | hmem
    · cases heq
      simp [dictLookup]
    · have hk : k' ≠ k := by
        intro hkk
        apply hn.1
        rw [hkk]
        exact List.mem_map_of_mem Prod.fst hmem
      simp only [dictLookup, hk, if_false]
      exact ih hn.2 hmem

/-- The map access finds a value under every key of the dictionary. -/
theorem dictLookup_isSome (d : PDFDict) (k : String) (h : k ∈ dictKeys d) :
    ∃ v, dictLookup d k = some v := by
  induction d with
  | nil => simp [dictKeys] at h
  | cons kv rest ih =>
    obtain ⟨k', v'⟩ := kv
    by_cases hk : k' = k
    · exact ⟨v', by simp [dictLookup, hk]⟩
    · have : k ∈ dictKeys rest := by
        simp only [dictKeys, List.map_cons, List.mem_cons] at h
        rcases h with h | h
        · exact absurd h.symm hk
        · exact h
      obtain ⟨v, hv⟩ := ih this
      exact ⟨v, by simp [dictLookup, hk, hv]⟩

/-- The loop of `equalPDFDicts` ends with `true` exactly when every entry visited
has a partner under its key and the comparison of the two values gives `true`. -/
theorem dictLoop_true_iff (cmp : PDFObject → PDFObject → Option Outcome) (deref : Resolver)
    (d2 : PDFDict) (l : List (String × PDFObject)) :
    dictLoop cmp deref d2 l = some (.ret true none) ↔
      ∀ kv ∈ l, ∃ v2, dictLookup d2 kv.1 = some v2 ∧
        (if isFontNameKey kv.1 then some (equalFontNames deref kv.2 v2) else cmp kv.2 v2)
          = some (.ret true none) := by
  induction l with
  | nil => simp [dictLoop]
  | cons kv rest ih =>
    obtain ⟨k, v1⟩ := kv
    simp only [List.forall_mem_cons, ← ih]
    cases hl : dictLookup d2 k with
    | none => simp [dictLoop, hl]
    | some v2 =>
      by_cases hf : isFontNameKey k = true
      · cases hc : equalFontNames deref v1 v2 with
        | runtimePanic => simp [dictLoop, hl, hf, hc]
        | ret ok err =>
          cases err with
          | some e => simp [dictLoop, hl, hf, hc]
          | none => cases ok <;> simp [dictLoop, hl, hf, hc]
      · cases hc : cmp v1 v2 with
        | none => simp [dictLoop, hl, hf, hc]
        | some r =>
          cases r with
          | runtimePanic => simp [dictLoop, hl, hf, hc]
          | ret ok err =>
            cases err with
            | some e => simp [dictLoop, hl, hf, hc]
            | none => cases ok <;> simp [dictLoop, hl, hf, hc]

/-- A table resolver returns direct values unchanged. -/
theorem tableResolver_passThrough (table : List (Int × PDFObject)) :
    PassThrough (tableResolver table) := by
  intro o ho
  cases o <;> simp [typeOf] at ho <;> rfl

/-- A list that is a permutation of a pair is the pair, in one of its two orders. -/
theorem perm_pair_cases {α : Type} {a b : α} {l : List α} (h : l.Perm [a, b]) :
    l = [a, b] ∨ l = [b, a] := by
  have hlen := h.length_eq
  match l, hlen with
  | [x, y], _ =>
    have hx : x ∈ [a, b] := h.subset (by simp)
    have hy : y ∈ [a, b] := h.subset (by simp)
    have ha : a ∈ [x, y] := h.symm.subset (by simp)
    have hb : b ∈ [x, y] := h.symm.subset (by simp)
    simp only [List.mem_cons, List.mem_singleton, List.not_mem_nil, or_false] at hx hy ha hb
    rcases hx with rfl | rfl <;> rcases hy with rfl | rfl
    · rcases hb with rfl | rfl <;> simp
    · simp
    · simp
    · rcases ha with rfl | rfl <;> simp

/-- C1: when the resolution of `a` fails, or the resolution of `a` succeeds and
the one of `b` fails, `equalPDFObjects a b` returns `false` together with that
resolution error. One unit of fuel is enough, so no nested comparison is made. -/
theorem equalPDFObjects_resolution_error (deref : Resolver) (a b : PDFObject) (e : String)
    (h : deref a = .error e ∨ ∃ a', deref a = .ok a' ∧ deref b = .error e) (fuel : Nat) :
    equalPDFObjects (fuel + 1) deref a b = some (.ret false (some (.resolution e))) := by
  rcases h with h | ⟨a', ha, hb⟩
  · simp [equalPDFObjects, h]
  · simp [equalPDFObjects, ha, hb]

theorem equalPDFObjects_resolution_error_witness :
    equalPDFObjects 1 (tableResolver []) (.integer 1) (.indirectRef 4 0)
      = some (.ret false (some (.resolution "object not found"))) :=
  equalPDFObjects_resolution_error (tableResolver []) (.integer 1) (.indirectRef 4 0)
    "object not found" (Or.inr ⟨.integer 1, rfl, rfl⟩) 0

/-- C2: when the resolved values of `a` and `b` have different dynamic types,
`equalPDFObjects a b` returns `false` with no error, with one unit of fuel, so
whatever the nested content is. In particular, under a resolver that returns
direct values unchanged, a dictionary and an array of any content compare as
`false`, in either order. -/
theorem equalPDFObjects_shape_mismatch (deref : Resolver) (fuel : Nat) :
    (∀ a b a' b', deref a = .ok a' → deref b = .ok b' → typeOf a' ≠ typeOf b' →
        equalPDFObjects (fuel + 1) deref a b = some (.ret false none)) ∧
    (PassThrough deref → ∀ (d : PDFDict) (arr : PDFArray),
        equalPDFObjects (fuel + 1) deref (.dict d) (.array arr) = some (.ret false none) ∧
        equalPDFObjects (fuel + 1) deref (.array arr) (.dict d) = some (.ret false none)) := by
  have general : ∀ a b a' b', deref a = .ok a' → deref b = .ok b' → typeOf a' ≠ typeOf b' →
      equalPDFObjects (fuel + 1) deref a b = some (.ret false none) := by
    intro a b a' b' ha hb hne
    simp [equalPDFObjects, ha, hb, hne]
  refine ⟨general, ?_⟩
  intro hp d arr
  have hd : deref (.dict d) = .ok (.dict d) := hp _ (by simp [typeOf])
  have harr : deref (.array arr) = .ok (.array arr) := hp _ (by simp [typeOf])
  exact ⟨general _ _ _ _ hd harr (by simp [typeOf]),
    general _ _ _ _ harr hd (by simp [typeOf])⟩

theorem equalPDFObjects_shape_mismatch_witness :
    equalPDFObjects 1 (tableResolver [(3, .array [.indirectRef 9 0, .null])])
      (.dict [("Kids", .indirectRef 8 0)]) (.indirectRef 3 0) = some (.ret false none) :=
  (equalPDFObjects_shape_mismatch (tableResolver [(3, .array [.indirectRef 9 0, .null])]) 0).1
    (.dict [("Kids", .indirectRef 8 0)]) (.indirectRef 3 0)
    (.dict [("Kids", .indirectRef 8 0)]) (.array [.indirectRef 9 0, .null])
    rfl rfl (by decide)

/-- C3: when `a` and `b` resolve to values of the same atomic type (Name,
literal String, hex String, Integer, Float or Boolean), `equalPDFObjects a b`
returns no error, and returns `true` exactly when the two resolved values are
the same value. -/
theorem equalPDFObjects_atomic (deref : Resolver) (a b a' b' : PDFObject) (fuel : Nat)
    (ha : deref a = .ok a') (hb : deref b = .ok b')
    (hty : typeOf a' = typeOf b') (hat : atomicShape (typeOf a') = true) :
    ∃ ok, equalPDFObjects (fuel + 1) deref a b = some (.ret ok none) ∧
      (ok = true ↔ a' = b') := by
  cases a' <;> cases b' <;> simp [typeOf, atomicShape] at hty hat <;>
    simp [equalPDFObjects, ha, hb, typeOf]

theorem equalPDFObjects_atomic_witness :
    ∃ ok, equalPDFObjects 1 (tableResolver [(5, .name "Type")]) (.indirectRef 5 0) (.name "Type")
        = some (.ret ok none) ∧
      (ok = true ↔ PDFObject.name "Type" = PDFObject.name "Type") :=
  equalPDFObjects_atomic (tableResolver [(5, .name "Type")]) (.indirectRef 5 0) (.name "Type")
    (.name "Type") (.name "Type") 0 rfl rfl rfl rfl

/-- C4: when `a` and `b` resolve to values of the same dynamic type and that
type is none of the nine for which there is a case (so both are the null
object, or both are still indirect references), `equalPDFObjects a b` returns
the error "unhandled compare for type", with the boolean `false`. -/
theorem equalPDFObjects_unhandled (deref : Resolver) (a b a' b' : PDFObject) (fuel : Nat)
    (ha : deref a = .ok a') (hb : deref b = .ok b')
    (hty : typeOf a' = typeOf b') (hun : knownShape (typeOf a') = false) :
    equalPDFObjects (fuel + 1) deref a b
      = some (.ret false (some (.unhandledCompare (typeOf a')))) := by
  cases a' <;> cases b' <;> simp [typeOf, knownShape, atomicShape] at hty hun <;>
    simp [equalPDFObjects, ha, hb, typeOf]

theorem equalPDFObjects_unhandled_witness :
    equalPDFObjects 1 (tableResolver [(5, .null)]) (.indirectRef 5 0) .null
      = some (.ret false (some (.unhandledCompare .nil))) :=
  equalPDFObjects_unhandled (tableResolver [(5, .null)]) (.indirectRef 5 0) .null .null .null 0
    rfl rfl rfl rfl

/-- C5: for two arrays of different lengths `equalPDFArrays` returns `false`
with no error, for every resolver and with one unit of fuel: no element is
resolved or compared. -/
theorem equalPDFArrays_length_mismatch (deref : Resolver) (arr1 arr2 : PDFArray) (fuel : Nat)
    (hlen : arr1.length ≠ arr2.length) :
    equalPDFArrays (fuel + 1) deref arr1 arr2 = some (.ret false none) := by
  simp [equalPDFArrays, hlen]

theorem equalPDFArrays_length_mismatch_witness :
    equalPDFArrays 1 (fun _ => .error "unresolvable") [.integer 1, .integer 2]
      [.integer 1, .integer 2, .integer 3] = some (.ret false none) :=
  equalPDFArrays_length_mismatch (fun _ => .error "unresolvable") [.integer 1, .integer 2]
    [.integer 1, .integer 2, .integer 3] 0 (by decide)

/-- C6: for two arrays of equal length without indirect references among the
elements, and a resolver that returns direct values unchanged, `equalPDFArrays`
returns exactly what the comparison position by position with `equalPDFObjects`
returns: the check of the unresolved types never changes the result. -/
theorem equalPDFArrays_eq_comparePositions (deref : Resolver) (arr1 arr2 : PDFArray)
    (fuel : Nat) (hp : PassThrough deref) (hlen : arr1.length = arr2.length)
    (h1 : ∀ o ∈ arr1, typeOf o ≠ .PDFIndirectRef)
    (h2 : ∀ o ∈ arr2, typeOf o ≠ .PDFIndirectRef) :
    equalPDFArrays (fuel + 2) deref arr1 arr2
      = comparePositions (fun o1 o2 => equalPDFObjects (fuel + 1) deref o1 o2) arr1 arr2 := by
  have hloop := arrayLoop_eq_comparePositions
    (fun o1 o2 => equalPDFObjects (fuel + 1) deref o1 o2) arr1 arr2 hlen
    (fun o1 ho1 o2 ho2 hne =>
      equalPDFObjects_direct_mismatch deref hp o1 o2 (h1 o1 ho1) (h2 o2 ho2) hne fuel)
  simp only [equalPDFArrays, hlen, ne_eq, not_true_eq_false, if_false]
  exact hloop

theorem equalPDFArrays_eq_comparePositions_witness :
    equalPDFArrays 2 (tableResolver []) [.integer 1, .name "A", .boolean true]
        [.integer 1, .integer 2, .null]
      = comparePositions (fun o1 o2 => equalPDFObjects 1 (tableResolver []) o1 o2)
        [.integer 1, .name "A", .boolean true] [.integer 1, .integer 2, .null] ∧
    comparePositions (fun o1 o2 => equalPDFObjects 1 (tableResolver []) o1 o2)
        [.integer 1, .name "A", .boolean true] [.integer 1, .integer 2, .null]
      = some (.ret false none) :=
  ⟨equalPDFArrays_eq_comparePositions (tableResolver []) [.integer 1, .name "A", .boolean true]
    [.integer 1, .integer 2, .null] 0 (tableResolver_passThrough [])
    rfl (by simp [typeOf]) (by simp [typeOf]), by decide⟩

/-- C7: for dictionaries with distinct keys, `equalPDFDicts d1 d2` returns `true`
with no error exactly when `d1` and `d2` have the same keys and, under every
key, the comparison of the two values (`equalFontNames` for `BaseFont`,
`FontName` and `Name`, `equalPDFObjects` otherwise) returns `true` with no
error. Dictionaries with different numbers of entries give `false` with no
error, and so do `{A:1, B:2}` and `{A:1, C:2}`, in whatever order their entries
are visited, under a resolver that returns direct values unchanged. -/
theorem equalPDFDicts_true_iff (deref : Resolver) (d1 d2 : PDFDict) (fuel : Nat)
    (hn1 : (dictKeys d1).Nodup) (hn2 : (dictKeys d2).Nodup) :
    (equalPDFDicts (fuel + 1) deref d1 d2 = some (.ret true none) ↔
      (∀ k, k ∈ dictKeys d1 ↔ k ∈ dictKeys d2) ∧
      ∀ k v1 v2, dictLookup d1 k = some v1 → dictLookup d2 k = some v2 →
        compareField fuel deref k v1 v2 = some (.ret true none)) ∧
    (dictLen d1 ≠ dictLen d2 →
      equalPDFDicts (fuel + 1) deref d1 d2 = some (.ret false none)) ∧
    (PassThrough deref → ∀ e1 e2 : PDFDict,
      e1.Perm [("A", .integer 1), ("B", .integer 2)] →
      e2.Perm [("A", .integer 1), ("C", .integer 2)] →
      equalPDFDicts (fuel + 2) deref e1 e2 = some (.ret false none)) := by
  refine ⟨?_, ?_, ?_⟩
  · constructor
    · intro h
      have hlen : dictLen d1 = dictLen d2 := by
        by_contra hne
        simp [equalPDFDicts, hne] at h
      simp only [equalPDFDicts, hlen, ne_eq, not_true_eq_false, if_false] at h
      rw [dictLoop_true_iff] at h
      have hsub : dictKeys d1 ⊆ dictKeys d2 := by
        intro k hk
        obtain ⟨kv, hkv, rfl⟩ := List.mem_map.mp hk
        obtain ⟨v2, hv2, _⟩ := h kv hkv
        exact List.mem_map.mpr ⟨(kv.1, v2), dictLookup_mem d2 kv.1 v2 hv2, rfl⟩
      have hperm : (dictKeys d1).Perm (dictKeys d2) := by
        apply (List.subperm_of_subset hn1 hsub).perm_of_length_le
        simp only [dictKeys, List.length_map]
        simp only [dictLen] at hlen
        omega
      refine ⟨fun k => hperm.mem_iff, ?_⟩
      intro k v1 v2 h1 h2
      obtain ⟨v2', hv2', hc⟩ := h (k, v1) (dictLookup_mem d1 k v1 h1)
      simp only at hv2' hc
      rw [h2] at hv2'
      cases hv2'
      simpa [compareField] using hc
    · rintro ⟨hkeys, hvals⟩
      have hperm : (dictKeys d1).Perm (dictKeys d2) :=
        (List.perm_ext_iff_of_nodup hn1 hn2).mpr hkeys
      have hlen : dictLen d1 = dictLen d2 := by
        have := hperm.length_eq
        simpa [dictKeys, dictLen] using this
      simp only [equalPDFDicts, hlen, ne_eq, not_true_eq_false, if_false]
      rw [dictLoop_true_iff]
      intro kv hkv
      have hk2 : kv.1 ∈ dictKeys d2 := (hkeys kv.1).mp (List.mem_map_of_mem Prod.fst hkv)
      obtain ⟨v2, hv2⟩ := dictLookup_isSome d2 kv.1 hk2
      refine ⟨v2, hv2, ?_⟩
      have h1 : dictLookup d1 kv.1 = some kv.2 := dictLookup_of_mem d1 hn1 kv.1 kv.2 hkv
      simpa [compareField] using hvals kv.1 kv.2 v2 h1 hv2
  · intro hne
    simp [equalPDFDicts, hne]
  · intro hp e1 e2 h1 h2
    have hint : ∀ i, deref (.integer i) = .ok (.integer i) := fun i => hp _ (by simp [typeOf])
    rcases perm_pair_cases h1 with rfl | rfl <;> rcases perm_pair_cases h2 with rfl | rfl <;>
      simp [equalPDFDicts, dictLen, dictLoop, dictLookup, isFontNameKey, equalPDFObjects,
        hint, typeOf]

theorem equalPDFDicts_true_iff_witness :
    (dictKeys [("Type", PDFObject.name "Font"), ("BaseFont", .name "ABCDEF+Helvetica")]).Nodup ∧
    (dictKeys [("BaseFont", PDFObject.name "Helvetica"), ("Type", .name "Font")]).Nodup ∧
    compareField 1 (tableResolver []) "BaseFont" (.name "ABCDEF+Helvetica") (.name "Helvetica")
      = some (.ret true none) ∧
    compareField 1 (tableResolver []) "Type" (.name "Font") (.name "Font")
      = some (.ret true none) :=
  have h := (equalPDFDicts_true_iff (tableResolver [])
    [("Type", .name "Font"), ("BaseFont", .name "ABCDEF+Helvetica")]
    [("BaseFont", .name "Helvetica"), ("Type", .name "Font")] 1
    (by decide) (by decide)).1.mp (by decide)
  ⟨by decide, by decide, h.2 "BaseFont" _ _ rfl rfl, h.2 "Type" _ _ rfl rfl⟩

/-- C8: when the two values resolve to the names `n1` and `n2`,
`equalFontNames` returns no error, and returns `true` exactly when the two
names without their subset tags are the same text. -/
theorem equalFontNames_names (deref : Resolver) (v1 v2 : PDFObject) (n1 n2 : String)
    (h1 : deref v1 = .ok (.name n1)) (h2 : deref v2 = .ok (.name n2)) :
    equalFontNames deref v1 v2
      = .ret (decide (stripSubsetTag n1 = stripSubsetTag n2)) none := by
  simp [equalFontNames, h1, h2, ignorePrefix_eq_stripSubsetTag]

theorem equalFontNames_names_witness :
    equalFontNames (tableResolver [(7, .name "ABCDEF+Helvetica")]) (.indirectRef 7 0)
        (.name "Helvetica") = .ret true none ∧
    equalFontNames (tableResolver []) (.name "+Helvetica") (.name "+Helvetica")
      = .ret true none ∧
    equalFontNames (tableResolver []) (.name "+Helvetica") (.name "Helvetica")
      = .ret false none :=
  ⟨(equalFontNames_names (tableResolver [(7, .name "ABCDEF+Helvetica")]) (.indirectRef 7 0)
      (.name "Helvetica") "ABCDEF+Helvetica" "Helvetica" rfl rfl).trans (by decide),
   (equalFontNames_names (tableResolver []) (.name "+Helvetica") (.name "+Helvetica")
      "+Helvetica" "+Helvetica" rfl rfl).trans (by decide),
   (equalFontNames_names (tableResolver []) (.name "+Helvetica") (.name "Helvetica")
      "+Helvetica" "Helvetica" rfl rfl).trans (by decide)⟩

/-- C9: under a resolver that returns direct values unchanged, for a non-empty
tag `t` without `+` and a name `n` without `+`: under each of the keys
`BaseFont`, `FontName` and `Name` the dictionaries `{k: t+n}` and `{k: n}` are
reported equal by `equalPDFDicts` and by `equalPDFObjects`; under every other
key they are reported unequal; and `{BaseFont: +Helvetica}` and
`{BaseFont: Helvetica}` are reported unequal. -/
theorem equalPDFDicts_subset_tag (deref : Resolver) (t n : String) (fuel : Nat)
    (hp : PassThrough deref) (ht : t.data ≠ []) (htp : '+' ∉ t.data) (hn : '+' ∉ n.data) :
    (∀ k ∈ ["BaseFont", "FontName", "Name"],
      equalPDFDicts (fuel + 1) deref [(k, .name (t ++ "+" ++ n))] [(k, .name n)]
        = some (.ret true none) ∧
      equalPDFObjects (fuel + 2) deref (.dict [(k, .name (t ++ "+" ++ n))])
        (.dict [(k, .name n)]) = some (.ret true none)) ∧
    (∀ k ∉ ["BaseFont", "FontName", "Name"],
      equalPDFDicts (fuel + 2) deref [(k, .name (t ++ "+" ++ n))] [(k, .name n)]
        = some (.ret false none) ∧
      equalPDFObjects (fuel + 3) deref (.dict [(k, .name (t ++ "+" ++ n))])
        (.dict [(k, .name n)]) = some (.ret false none)) ∧
    (equalPDFDicts (fuel + 1) deref [("BaseFont", .name "+Helvetica")]
        [("BaseFont", .name "Helvetica")] = some (.ret false none) ∧
      equalPDFObjects (fuel + 2) deref (.dict [("BaseFont", .name "+Helvetica")])
        (.dict [("BaseFont", .name "Helvetica")]) = some (.ret false none)) := by
  have hname : ∀ s, deref (.name s) = .ok (.name s) := fun s => hp _ (by simp [typeOf])
  have hdict : ∀ d, deref (.dict d) = .ok (.dict d) := fun d => hp _ (by simp [typeOf])
  have hobj : ∀ (f : Nat) (d1 d2 : PDFDict),
      equalPDFObjects (f + 1) deref (.dict d1) (.dict d2) = equalPDFDicts f deref d1 d2 := by
    intro f d1 d2
    simp [equalPDFObjects, hdict, typeOf]
  refine ⟨?_, ?_, ?_⟩
  · intro k hk
    have hkey : isFontNameKey k = true := (isFontNameKey_iff k).mpr hk
    have hd : equalPDFDicts (fuel + 1) deref [(k, .name (t ++ "+" ++ n))] [(k, .name n)]
        = some (.ret true none) := by
      simp [equalPDFDicts, dictLen, dictLoop, dictLookup, hkey, equalFontNames, hname,
        ignorePrefix_tagged t n ht htp, ignorePrefix_no_plus n hn]
    exact ⟨hd, by rw [hobj]; exact hd⟩
  · intro k hk
    have hkey : isFontNameKey k = false := by
      cases h : isFontNameKey k with
      | false => rfl
      | true => exact absurd ((isFontNameKey_iff k).mp h) hk
    have hd : equalPDFDicts (fuel + 2) deref [(k, .name (t ++ "+" ++ n))] [(k, .name n)]
        = some (.ret false none) := by
      simp [equalPDFDicts, dictLen, dictLoop, dictLookup, hkey, equalPDFObjects, hname,
        typeOf, tagged_ne t n]
    exact ⟨hd, by rw [hobj]; exact hd⟩
  · have hd : equalPDFDicts (fuel + 1) deref [("BaseFont", .name "+Helvetica")]
        [("BaseFont", .name "Helvetica")] = some (.ret false none) := by
      have h1 : ignorePrefix "+Helvetica" = "+Helvetica" := by decide
      have h2 : ignorePrefix "Helvetica" = "Helvetica" := by decide
      have h3 : isFontNameKey "BaseFont" = true := by decide
      simp [equalPDFDicts, dictLen, dictLoop, dictLookup, h3, equalFontNames, hname, h1, h2]
    exact ⟨hd, by rw [hobj]; exact hd⟩

theorem equalPDFDicts_subset_tag_witness :
    equalPDFDicts 1 (tableResolver [])
        [("BaseFont", .name ("ABCDEF" ++ "+" ++ "Helvetica"))] [("BaseFont", .name "Helvetica")]
      = some (.ret true none) ∧
    equalPDFDicts 2 (tableResolver [])
        [("Subtype", .name ("ABCDEF" ++ "+" ++ "Helvetica"))] [("Subtype", .name "Helvetica")]
      = some (.ret false none) :=
  have h := equalPDFDicts_subset_tag (tableResolver []) "ABCDEF" "Helvetica" 0
    (tableResolver_passThrough []) (by decide) (by decide) (by decide)
  ⟨(h.1 "BaseFont" (by simp)).1, (h.2.1 "Subtype" (by simp)).1⟩

/-- C10: at a first value that is a Name and a second value that is an Integer,
`equalFontNames` panics (line 158 asserts the type with the single-value form,
and the test of line 159 reads the flag of the first assertion), and so does
the comparison of two dictionaries that hold these values under `BaseFont`;
with the two values exchanged the error "type cast problem" is returned. -/
theorem equalFontNames_second_value_panics :
    equalFontNames (tableResolver []) (.name "Helvetica") (.integer 1) = .runtimePanic ∧
    equalPDFDicts 1 (tableResolver []) [("BaseFont", .name "Helvetica")]
        [("BaseFont", .integer 1)] = some .runtimePanic ∧
    equalFontNames (tableResolver []) (.integer 1) (.name "Helvetica")
      = .ret false (some .typeCastProblem) := by
  decide

/-- C11: with equal dictionaries and the payload of the second stream not loaded,
`equalPDFStreamDicts` returns no error: `false` when the first payload has
bytes, `true` when it is empty (line 124 tests the pointer `sd2`, not
`sd2.Raw`); with the payload of the first stream not loaded it returns the
error "stream dict not loaded". -/
theorem equalPDFStreamDicts_second_not_loaded :
    equalPDFStreamDicts 3 (tableResolver []) ⟨[("Length", .integer 1)], some [1]⟩
        ⟨[("Length", .integer 1)], none⟩ = some (.ret false none) ∧
    equalPDFStreamDicts 3 (tableResolver []) ⟨[("Length", .integer 0)], some []⟩
        ⟨[("Length", .integer 0)], none⟩ = some (.ret true none) ∧
    equalPDFStreamDicts 3 (tableResolver []) ⟨[("Length", .integer 1)], none⟩
        ⟨[("Length", .integer 1)], some [1]⟩
      = some (.ret false (some .streamDictNotLoaded)) := by
  decide

/-- C12: for two streams with both payloads loaded, `equalPDFStreamDicts` returns
the error of `equalPDFDicts` on the two dictionaries when there is one, and
otherwise returns no error, and `true` exactly when `equalPDFDicts` returns
`true` and the two payloads are the same sequence of bytes. -/
theorem equalPDFStreamDicts_loaded (deref : Resolver) (d1 d2 : PDFDict) (raw1 raw2 : List Nat)
    (fuel : Nat) :
    (∀ ok e, equalPDFDicts fuel deref d1 d2 = some (.ret ok (some e)) →
      equalPDFStreamDicts (fuel + 1) deref ⟨d1, some raw1⟩ ⟨d2, some raw2⟩
        = some (.ret false (some e))) ∧
    (∀ ok, equalPDFDicts fuel deref d1 d2 = some (.ret ok none) →
      equalPDFStreamDicts (fuel + 1) deref ⟨d1, some raw1⟩ ⟨d2, some raw2⟩
        = some (.ret (ok && decide (raw1 = raw2)) none)) := by
  constructor
  · intro ok e h
    simp [equalPDFStreamDicts, h]
  · intro ok h
    cases ok <;> simp [equalPDFStreamDicts, h, bytesEqual]

theorem equalPDFStreamDicts_loaded_witness :
    equalPDFStreamDicts 3 (tableResolver []) ⟨[("Length", .integer 2)], some [1, 2]⟩
        ⟨[("Length", .integer 2)], some [1, 3]⟩ = some (.ret false none) ∧
    equalPDFStreamDicts 3 (tableResolver []) ⟨[("Length", .integer 2)], some [1, 2]⟩
        ⟨[("Length", .integer 2)], some [1, 2]⟩ = some (.ret true none) :=
  ⟨(equalPDFStreamDicts_loaded (tableResolver []) [("Length", .integer 2)]
      [("Length", .integer 2)] [1, 2] [1, 3] 2).2 true (by decide),
   (equalPDFStreamDicts_loaded (tableResolver []) [("Length", .integer 2)]
      [("Length", .integer 2)] [1, 2] [1, 2] 2).2 true (by decide)⟩

/-- C15: for an idempotent resolver and a value `r` that it resolves to `v`,
`equalPDFObjects r b` returns what `equalPDFObjects v b` returns and
`equalPDFObjects b r` what `equalPDFObjects b v` returns, for every `b`; so
`v` compared with `r`, and two values that resolve to `v` compared with each
other, give what `v` compared with itself gives. -/
theorem equalPDFObjects_reference_transparent (deref : Resolver) (r v : PDFObject)
    (hid : Idempotent deref) (hr : deref r = .ok v) (fuel : Nat) :
    (∀ b, equalPDFObjects fuel deref r b = equalPDFObjects fuel deref v b ∧
      equalPDFObjects fuel deref b r = equalPDFObjects fuel deref b v) ∧
    equalPDFObjects fuel deref v r = equalPDFObjects fuel deref v v ∧
    (∀ r2, deref r2 = .ok v →
      equalPDFObjects fuel deref r r2 = equalPDFObjects fuel deref v v) := by
  have hv : deref v = .ok v := hid r v hr
  have key : ∀ (x x' y y' : PDFObject), deref x = deref x' → deref y = deref y' →
      equalPDFObjects fuel deref x y = equalPDFObjects fuel deref x' y' := by
    intro x x' y y' hx hy
    cases fuel with
    | zero => simp [equalPDFObjects]
    | succ f => simp only [equalPDFObjects, hx, hy]
  refine ⟨fun b => ⟨key _ _ _ _ (hr.trans hv.symm) rfl, key _ _ _ _ rfl (hr.trans hv.symm)⟩,
    key _ _ _ _ rfl (hr.trans hv.symm), ?_⟩
  intro r2 hr2
  exact key _ _ _ _ (hr.trans hv.symm) (hr2.trans hv.symm)

theorem equalPDFObjects_reference_transparent_witness :
    equalPDFObjects 2 (tableResolver [(1, .integer 7)]) (.indirectRef 1 0) (.integer 7)
      = equalPDFObjects 2 (tableResolver [(1, .integer 7)]) (.integer 7) (.integer 7) ∧
    equalPDFObjects 2 (tableResolver [(1, .integer 7)]) (.integer 7) (.integer 7)
      = some (.ret true none) :=
  ⟨((equalPDFObjects_reference_transparent (tableResolver [(1, .integer 7)])
      (.indirectRef 1 0) (.integer 7)
      (by
        intro o v h
        cases o <;> simp only [tableResolver] at h <;> try (cases h; rfl)
        rename_i nr gen
        by_cases hnr : nr = 1
        · subst hnr
          simp [List.lookup] at h
          subst h
          rfl
        · have : (nr == 1) = false := by simpa using hnr
          simp [List.lookup, this] at h)
      rfl 2).1 (.integer 7)).1,
   by decide⟩

/-- C18: there are a resolver, an indirect reference `r` and an atomic value `v`
to which `r` resolves, such that `equalPDFObjects r v` returns `true` while
`equalPDFArrays [r] [v]` returns `false` with no error, whatever the fuel. -/
theorem equalPDFArrays_reference_vs_literal :
    ∃ (deref : Resolver) (r v : PDFObject),
      typeOf r = .PDFIndirectRef ∧ atomicShape (typeOf v) = true ∧ deref r = .ok v ∧
      (∀ fuel, equalPDFObjects (fuel + 1) deref r v = some (.ret true none)) ∧
      (∀ fuel, equalPDFArrays (fuel + 1) deref [r] [v] = some (.ret false none)) := by
  refine ⟨tableResolver [(1, .integer 7)], .indirectRef 1 0, .integer 7, rfl, rfl, rfl, ?_, ?_⟩
  · intro fuel
    simp [equalPDFObjects, tableResolver, List.lookup, typeOf]
  · intro fuel
    simp [equalPDFArrays, arrayLoop, typeOf]

/-- An error that the loop of `equalPDFArrays` returns comes with `false`. -/
theorem arrayLoop_error_false (cmp : PDFObject → PDFObject → Option Outcome)
    (arr1 arr2 : List PDFObject) (ok : Bool) (e : CmpError)
    (h : arrayLoop cmp arr1 arr2 = some (.ret ok (some e))) : ok = false := by
  induction arr1 generalizing arr2 with
  | nil => simp [arrayLoop] at h
  | cons o1 rest1 ih =>
    cases arr2 with
    | nil => simp [arrayLoop] at h
    | cons o2 rest2 =>
      by_cases hty : typeOf o1 = typeOf o2
      · simp only [arrayLoop, hty, ne_eq, not_true_eq_false, if_false] at h
        cases hc : cmp o1 o2 with
        | none => simp [hc] at h
        | some r =>
          cases r with
          | runtimePanic => simp [hc] at h
          | ret ok' err =>
            cases err with
            | some e' =>
              simp [hc] at h
              exact h.1
            | none =>
              cases ok' with
              | false => simp [hc] at h
              | true =>
                simp [hc] at h
                exact ih rest2 h
      · simp [arrayLoop, hty] at h

/-- An error that the loop of `equalPDFDicts` returns comes with `false`. -/
theorem dictLoop_error_false (cmp : PDFObject → PDFObject → Option Outcome) (deref : Resolver)
    (d2 : PDFDict) (l : List (String × PDFObject)) (ok : Bool) (e : CmpError)
    (h : dictLoop cmp deref d2 l = some (.ret ok (some e))) : ok = false := by
  induction l with
  | nil => simp [dictLoop] at h
  | cons kv rest ih =>
    obtain ⟨k, v1⟩ := kv
    cases hl : dictLookup d2 k with
    | none => simp [dictLoop, hl] at h
    | some v2 =>
      by_cases hf : isFontNameKey k = true
      · cases hc : equalFontNames deref v1 v2 with
        | runtimePanic => simp [dictLoop, hl, hf, hc] at h
        | ret ok' err =>
          cases err with
          | some e' =>
            simp [dictLoop, hl, hf, hc] at h
            exact h.1
          | none =>
            cases ok' with
            | false => simp [dictLoop, hl, hf, hc] at h
            | true =>
              simp [dictLoop, hl, hf, hc] at h
              exact ih h
      · cases hc : cmp v1 v2 with
        | none => simp [dictLoop, hl, hf, hc] at h
        | some r =>
          cases r with
          | runtimePanic => simp [dictLoop, hl, hf, hc] at h
          | ret ok' err =>
            cases err with
            | some e' =>
              simp [dictLoop, hl, hf, hc] at h
              exact h.1
            | none =>
              cases ok' with
              | false => simp [dictLoop, hl, hf, hc] at h
              | true =>
                simp [dictLoop, hl, hf, hc] at h
                exact ih h

/-- An error that `equalPDFArrays` returns comes with `false`. -/
theorem equalPDFArrays_error_false (fuel : Nat) (deref : Resolver) (arr1 arr2 : PDFArray)
    (ok : Bool) (e : CmpError)
    (h : equalPDFArrays fuel deref arr1 arr2 = some (.ret ok (some e))) : ok = false := by
  cases fuel with
  | zero => simp [equalPDFArrays] at h
  | succ f =>
    by_cases hlen : arr1.length = arr2.length
    · simp only [equalPDFArrays, hlen, ne_eq, not_true_eq_false, if_false] at h
      exact arrayLoop_error_false _ _ _ _ _ h
    · simp [equalPDFArrays, hlen] at h

/-- An error that `equalPDFDicts` returns comes with `false`. -/
theorem equalPDFDicts_error_false (fuel : Nat) (deref : Resolver) (d1 d2 : PDFDict)
    (ok : Bool) (e : CmpError)
    (h : equalPDFDicts fuel deref d1 d2 = some (.ret ok (some e))) : ok = false := by
  cases fuel with
  | zero => simp [equalPDFDicts] at h
  | succ f =>
    by_cases hlen : dictLen d1 = dictLen d2
    · simp only [equalPDFDicts, hlen, ne_eq, not_true_eq_false, if_false] at h
      exact dictLoop_error_false _ _ _ _ _ _ h
    · simp [equalPDFDicts, hlen] at h

/-- An error that `equalPDFStreamDicts` returns comes with `false`. -/
theorem equalPDFStreamDicts_error_false (fuel : Nat) (deref : Resolver)
    (sd1 sd2 : PDFStreamDict) (ok : Bool) (e : CmpError)
    (h : equalPDFStreamDicts fuel deref sd1 sd2 = some (.ret ok (some e))) : ok = false := by
  cases fuel with
  | zero => simp [equalPDFStreamDicts] at h
  | succ f =>
    simp only [equalPDFStreamDicts] at h
    cases hd : equalPDFDicts f deref sd1.dict sd2.dict with
    | none => simp [hd] at h
    | some r =>
      cases r with
      | runtimePanic => simp [hd] at h
      | ret ok' err =>
        cases err with
        | some e' =>
          simp [hd] at h
          exact h.1
        | none =>
          cases ok' with
          | false => simp [hd] at h
          | true =>
            cases hraw : sd1.raw with
            | none =>
              simp [hd, hraw] at h
              exact h.1
            | some b => simp [hd, hraw] at h

/-- An error that `equalFontNames` returns comes with `false`. -/
theorem equalFontNames_error_false (deref : Resolver) (v1 v2 : PDFObject)
    (ok : Bool) (e : CmpError)
    (h : equalFontNames deref v1 v2 = .ret ok (some e)) : ok = false := by
  simp only [equalFontNames] at h
  split at h
  · simp at h; exact h.1
  · split at h
    · split at h
      · simp at h; exact h.1
      · split at h <;> simp at h
    · simp at h; exact h.1

/-- An error that `equalPDFObjects` returns comes with `false`. -/
theorem equalPDFObjects_error_false (fuel : Nat) (deref : Resolver) (o1 o2 : PDFObject)
    (ok : Bool) (e : CmpError)
    (h : equalPDFObjects fuel deref o1 o2 = some (.ret ok (some e))) : ok = false := by
  cases fuel with
  | zero => simp [equalPDFObjects] at h
  | succ f =>
    simp only [equalPDFObjects] at h
    split at h
    · simp at h; exact h.1
    · split at h
      · simp at h; exact h.1
      · split at h
        · simp at h
        · split at h
          all_goals first
            | (simp at h; done)
            | exact equalPDFDicts_error_false _ _ _ _ _ _ h
            | exact equalPDFStreamDicts_error_false _ _ _ _ _ _ h
            | exact equalPDFArrays_error_false _ _ _ _ _ _ h
            | (simp at h; exact h.1)

/-- C20: whenever `equalPDFObjects`, `equalPDFArrays`, `equalPDFDicts`,
`equalPDFStreamDicts`, `equalFontNames` or `equalFontDicts` returns an error,
the boolean returned with it is `false`. -/
theorem error_implies_false (fuel : Nat) (deref : Resolver) (ok : Bool) (e : CmpError) :
    (∀ o1 o2, equalPDFObjects fuel deref o1 o2 = some (.ret ok (some e)) → ok = false) ∧
    (∀ arr1 arr2, equalPDFArrays fuel deref arr1 arr2 = some (.ret ok (some e)) → ok = false) ∧
    (∀ d1 d2, equalPDFDicts fuel deref d1 d2 = some (.ret ok (some e)) → ok = false) ∧
    (∀ sd1 sd2, equalPDFStreamDicts fuel deref sd1 sd2 = some (.ret ok (some e)) →
      ok = false) ∧
    (∀ v1 v2, equalFontNames deref v1 v2 = .ret ok (some e) → ok = false) ∧
    (∀ fd1 fd2, equalFontDicts fuel deref fd1 fd2 = some (.ret ok (some e)) → ok = false) := by
  refine ⟨fun o1 o2 h => equalPDFObjects_error_false _ _ _ _ _ _ h,
    fun a1 a2 h => equalPDFArrays_error_false _ _ _ _ _ _ h,
    fun d1 d2 h => equalPDFDicts_error_false _ _ _ _ _ _ h,
    fun s1 s2 h => equalPDFStreamDicts_error_false _ _ _ _ _ _ h,
    fun v1 v2 h => equalFontNames_error_false _ _ _ _ _ h, ?_⟩
  intro fd1 fd2 h
  simp only [equalFontDicts] at h
  split at h
  · simp at h
  · split at h
    · simp at h
    · split at h
      · simp at h
      · split at h
        · simp at h
        · simp at h
        · split at h
          · simp at h
            exact h.1
          · simp at h

theorem error_implies_false_witness :
    equalPDFArrays 2 (tableResolver []) [.indirectRef 4 0] [.indirectRef 5 0]
      = some (.ret false (some (.resolution "object not found"))) ∧ false = false :=
  ⟨by decide,
   (error_implies_false 2 (tableResolver []) false (.resolution "object not found")).2.1
    [.indirectRef 4 0] [.indirectRef 5 0] (by decide)⟩

/-- With distinct keys, the map access does not depend on the order of the
entries. -/
theorem dictLookup_perm (d d' : PDFDict) (hp : d.Perm d') (hn : (dictKeys d).Nodup)
    (k : String) : dictLookup d k = dictLookup d' k := by
  have hn' : (dictKeys d').Nodup := (hp.map Prod.fst).nodup_iff.mp hn
  cases h : dictLookup d k with
  | some v =>
    have hmem : (k, v) ∈ d' := hp.subset (dictLookup_mem d k v h)
    exact (dictLookup_of_mem d' hn' k v hmem).symm
  | none =>
    cases h' : dictLookup d' k with
    | none => rfl
    | some v' =>
      have hmem : (k, v') ∈ d := hp.symm.subset (dictLookup_mem d' k v' h')
      rw [dictLookup_of_mem d hn k v' hmem] at h
      cases h

/-- C17, as amended: whether `equalPDFDicts d1 d2` returns `true` with no error
does not depend on the order in which the entries of `d1`, or those of `d2`,
are visited; and when the comparison returns in two orders, the boolean is the
same. -/
theorem equalPDFDicts_true_order_independent (deref : Resolver) (d1 d1' d2 d2' : PDFDict)
    (fuel : Nat) (h1 : d1.Perm d1') (h2 : d2.Perm d2') (hn : (dictKeys d2).Nodup) :
    (equalPDFDicts fuel deref d1 d2 = some (.ret true none) ↔
      equalPDFDicts fuel deref d1' d2' = some (.ret true none)) ∧
    (∀ ok ok' err err', equalPDFDicts fuel deref d1 d2 = some (.ret ok err) →
      equalPDFDicts fuel deref d1' d2' = some (.ret ok' err') → ok = ok') := by
  have hiff : equalPDFDicts fuel deref d1 d2 = some (.ret true none) ↔
      equalPDFDicts fuel deref d1' d2' = some (.ret true none) := by
    cases fuel with
    | zero => simp [equalPDFDicts]
    | succ f =>
      have hl1 : dictLen d1 = dictLen d1' := h1.length_eq
      have hl2 : dictLen d2 = dictLen d2' := h2.length_eq
      by_cases hlen : dictLen d1 = dictLen d2
      · have hlen' : dictLen d1' = dictLen d2' := by omega
        simp only [equalPDFDicts, hlen, hlen', ne_eq, not_true_eq_false, if_false]
        rw [dictLoop_true_iff, dictLoop_true_iff]
        constructor
        · intro h kv hkv
          obtain ⟨v2, hv2, hc⟩ := h kv (h1.symm.subset hkv)
          exact ⟨v2, by rw [← dictLookup_perm d2 d2' h2 hn]; exact hv2, hc⟩
        · intro h kv hkv
          obtain ⟨v2, hv2, hc⟩ := h kv (h1.subset hkv)
          exact ⟨v2, by rw [dictLookup_perm d2 d2' h2 hn]; exact hv2, hc⟩
      · have hlen' : ¬ dictLen d1' = dictLen d2' := by omega
        simp [equalPDFDicts, hlen, hlen']
  refine ⟨hiff, ?_⟩
  intro ok ok' err err' ha hb
  have toTrue : ∀ (d e : PDFDict) (o : Bool) (er : Option CmpError),
      equalPDFDicts fuel deref d e = some (.ret o er) → o = true →
      equalPDFDicts fuel deref d e = some (.ret true none) := by
    intro d e o er h ho
    subst ho
    cases er with
    | none => exact h
    | some x => exact absurd (equalPDFDicts_error_false _ _ _ _ _ _ h) (by simp)
  cases ok with
  | true =>
    have := hiff.mp (toTrue _ _ _ _ ha rfl)
    rw [hb] at this
    simp at this
    exact this.1.symm
  | false =>
    cases ok' with
    | false => rfl
    | true =>
      have := hiff.mpr (toTrue _ _ _ _ hb rfl)
      rw [ha] at this
      simp at this

theorem equalPDFDicts_true_order_independent_witness :
    equalPDFDicts 2 (tableResolver [])
        [("BaseFont", .name "Helvetica"), ("Type", .name "Font")]
        [("Type", .name "Font"), ("BaseFont", .name "AAAAAA+Helvetica")]
      = some (.ret true none) :=
  (equalPDFDicts_true_order_independent (tableResolver [])
    [("Type", .name "Font"), ("BaseFont", .name "Helvetica")]
    [("BaseFont", .name "Helvetica"), ("Type", .name "Font")]
    [("BaseFont", .name "AAAAAA+Helvetica"), ("Type", .name "Font")]
    [("Type", .name "Font"), ("BaseFont", .name "AAAAAA+Helvetica")] 2
    (List.Perm.swap _ _ _) (List.Perm.swap _ _ _) (by decide)).1.mp (by decide)

/-- C17, as stated, fails: with the entries of `d1` visited in the order `A`,
`B` the comparison returns `false` with no error, and in the order `B`, `A` it
returns the error of the resolver. -/
theorem equalPDFDicts_order_dependent :
    List.Perm [("A", PDFObject.integer 1), ("B", .indirectRef 9 0)]
      [("B", PDFObject.indirectRef 9 0), ("A", .integer 1)] ∧
    equalPDFDicts 2 (tableResolver []) [("A", .integer 1), ("B", .indirectRef 9 0)]
        [("A", .integer 2), ("B", .integer 5)] = some (.ret false none) ∧
    equalPDFDicts 2 (tableResolver []) [("B", .indirectRef 9 0), ("A", .integer 1)]
        [("A", .integer 2), ("B", .integer 5)]
      = some (.ret false (some (.resolution "object not found"))) :=
  ⟨List.Perm.swap _ _ _, by decide, by decide⟩

/-- Pairs of elements that pass do not change what the loop of `equalPDFArrays`
returns for the rest. -/
theorem arrayLoop_append (cmp : PDFObject → PDFObject → Option Outcome)
    (pre1 pre2 l1 l2 : List PDFObject) (hlen : pre1.length = pre2.length)
    (hpre : arrayLoop cmp pre1 pre2 = some (.ret true none)) :
    arrayLoop cmp (pre1 ++ l1) (pre2 ++ l2) = arrayLoop cmp l1 l2 := by
  induction pre1 generalizing pre2 with
  | nil =>
    cases pre2 with
    | nil => rfl
    | cons o2 r2 => simp at hlen
  | cons o1 r1 ih =>
    cases pre2 with
    | nil => simp at hlen
    | cons o2 r2 =>
      by_cases hty : typeOf o1 = typeOf o2
      · simp only [List.cons_append, arrayLoop, hty, ne_eq, not_true_eq_false, if_false] at hpre ⊢
        cases hc : cmp o1 o2 with
        | none => simp [hc] at hpre
        | some r =>
          cases r with
          | runtimePanic => simp [hc] at hpre
          | ret ok err =>
            cases err with
            | some e => simp [hc] at hpre
            | none =>
              cases ok with
              | false => simp [hc] at hpre
              | true =>
                simp [hc] at hpre
                simp only [Option.isSome_none, Bool.false_eq_true, if_false, Bool.not_true]
                exact ih r2 (by simpa using hlen) hpre
      · simp [arrayLoop, hty] at hpre

/-- Entries that pass do not change what the loop of `equalPDFDicts` returns for
the rest. -/
theorem dictLoop_append (cmp : PDFObject → PDFObject → Option Outcome) (deref : Resolver)
    (d2 : PDFDict) (pre l : List (String × PDFObject))
    (hpre : dictLoop cmp deref d2 pre = some (.ret true none)) :
    dictLoop cmp deref d2 (pre ++ l) = dictLoop cmp deref d2 l := by
  induction pre with
  | nil => rfl
  | cons kv rest ih =>
    obtain ⟨k, v1⟩ := kv
    cases hl : dictLookup d2 k with
    | none => simp [dictLoop, hl] at hpre
    | some v2 =>
      by_cases hf : isFontNameKey k = true
      · cases hc : equalFontNames deref v1 v2 with
        | runtimePanic => simp [dictLoop, hl, hf, hc] at hpre
        | ret ok err =>
          cases err with
          | some e => simp [dictLoop, hl, hf, hc] at hpre
          | none =>
            cases ok with
            | false => simp [dictLoop, hl, hf, hc] at hpre
            | true =>
              simp [dictLoop, hl, hf, hc] at hpre
              simp [dictLoop, hl, hf, hc, ih hpre]
      · cases hc : cmp v1 v2 with
        | none => simp [dictLoop, hl, hf, hc] at hpre
        | some r =>
          cases r with
          | runtimePanic => simp [dictLoop, hl, hf, hc] at hpre
          | ret ok err =>
            cases err with
            | some e => simp [dictLoop, hl, hf, hc] at hpre
            | none =>
              cases ok with
              | false => simp [dictLoop, hl, hf, hc] at hpre
              | true =>
                simp [dictLoop, hl, hf, hc] at hpre
                simp [dictLoop, hl, hf, hc, ih hpre]

/-- Nesting in arrays keeps equal dynamic types equal. -/
theorem typeOf_nestArray (n : Nat) (r b : PDFObject) (h : typeOf r = typeOf b) :
    typeOf (nestArray n r) = typeOf (nestArray n b) := by
  cases n with
  | zero => exact h
  | succ m => rfl

/-- C16, as amended: an error is returned by the top-level call whenever the
comparison reaches the place where it arises. The failure of the resolver on
one of the two values makes `equalPDFObjects` return that error; an error
returned for a pair of elements (a pair of values under a key) is returned by
`equalPDFArrays` (`equalPDFDicts`) when the arrays have the same length (the
dictionaries the same number of entries), the pairs visited before have passed
and the two elements have the same unresolved type (the key is in the second
dictionary); `equalPDFStreamDicts` returns the error of `equalPDFDicts`, and
`equalPDFObjects` the error of the routine that it calls. So, under a resolver
that returns direct values unchanged, the failure on a reference inside `n`
nested arrays is returned for every `n`. -/
theorem resolver_error_propagates (deref : Resolver) (fuel : Nat) (e : CmpError) :
    (∀ a b msg, (deref a = .error msg ∨ ∃ a', deref a = .ok a' ∧ deref b = .error msg) →
      equalPDFObjects (fuel + 1) deref a b = some (.ret false (some (.resolution msg)))) ∧
    (∀ pre1 pre2 o1 o2 post1 post2 ok,
      pre1.length = pre2.length → post1.length = post2.length →
      arrayLoop (fun x y => equalPDFObjects fuel deref x y) pre1 pre2 = some (.ret true none) →
      typeOf o1 = typeOf o2 →
      equalPDFObjects fuel deref o1 o2 = some (.ret ok (some e)) →
      equalPDFArrays (fuel + 1) deref (pre1 ++ o1 :: post1) (pre2 ++ o2 :: post2)
        = some (.ret false (some e))) ∧
    (∀ pre k v1 post d2 v2 ok,
      dictLen (pre ++ (k, v1) :: post) = dictLen d2 →
      dictLoop (fun x y => equalPDFObjects fuel deref x y) deref d2 pre
        = some (.ret true none) →
      dictLookup d2 k = some v2 →
      compareField fuel deref k v1 v2 = some (.ret ok (some e)) →
      equalPDFDicts (fuel + 1) deref (pre ++ (k, v1) :: post) d2
        = some (.ret false (some e))) ∧
    (∀ sd1 sd2 ok, equalPDFDicts fuel deref sd1.dict sd2.dict = some (.ret ok (some e)) →
      equalPDFStreamDicts (fuel + 1) deref sd1 sd2 = some (.ret false (some e))) ∧
    (∀ a b a' b' ok, deref a = .ok a' → deref b = .ok b' →
      ((∃ x y, a' = .array x ∧ b' = .array y ∧
          equalPDFArrays fuel deref x y = some (.ret ok (some e))) ∨
        (∃ x y, a' = .dict x ∧ b' = .dict y ∧
          equalPDFDicts fuel deref x y = some (.ret ok (some e))) ∨
        (∃ x r y s, a' = .streamDict x r ∧ b' = .streamDict y s ∧
          equalPDFStreamDicts fuel deref ⟨x, r⟩ ⟨y, s⟩ = some (.ret ok (some e)))) →
      equalPDFObjects (fuel + 1) deref a b = some (.ret ok (some e))) ∧
    (PassThrough deref → ∀ n r b msg, typeOf r = typeOf b → deref r = .error msg →
      equalPDFObjects (2 * n + 1) deref (nestArray n r) (nestArray n b)
        = some (.ret false (some (.resolution msg)))) := by
  refine ⟨?_, ?_, ?_, ?_, ?_, ?_⟩
  · rintro a b msg (h | ⟨a', ha, hb⟩)
    · simp [equalPDFObjects, h]
    · simp [equalPDFObjects, ha, hb]
  · intro pre1 pre2 o1 o2 post1 post2 ok hpre hpost hpass hty hc
    have hlen : (pre1 ++ o1 :: post1).length = (pre2 ++ o2 :: post2).length := by
      simp [hpre, hpost]
    simp only [equalPDFArrays, hlen, ne_eq, not_true_eq_false, if_false]
    rw [arrayLoop_append _ _ _ _ _ hpre hpass]
    simp [arrayLoop, hty, hc]
  · intro pre k v1 post d2 v2 ok hlen hpass hl hc
    simp only [equalPDFDicts, hlen, ne_eq, not_true_eq_false, if_false]
    rw [dictLoop_append _ _ _ _ _ hpass]
    by_cases hf : isFontNameKey k = true
    · simp only [compareField, hf, if_true, Option.some.injEq] at hc
      simp [dictLoop, hl, hf, hc]
    · have hf' : isFontNameKey k = false := by simpa using hf
      simp only [compareField, hf', Bool.false_eq_true, if_false] at hc
      simp [dictLoop, hl, hf', hc]
  · intro sd1 sd2 ok h
    simp [equalPDFStreamDicts, h]
  · intro a b a' b' ok ha hb h
    rcases h with ⟨x, y, rfl, rfl, h⟩ | ⟨x, y, rfl, rfl, h⟩ | ⟨x, r, y, s, rfl, rfl, h⟩ <;>
      simp [equalPDFObjects, ha, hb, typeOf, h]
  · intro hp n r b msg hty hr
    induction n with
    | zero => simp [nestArray, equalPDFObjects, hr]
    | succ m ih =>
      have h1 : deref (.array [nestArray m r]) = .ok (.array [nestArray m r]) :=
        hp _ (by simp [typeOf])
      have h2 : deref (.array [nestArray m b]) = .ok (.array [nestArray m b]) :=
        hp _ (by simp [typeOf])
      have hfuel : 2 * (m + 1) + 1 = (2 * m + 1) + 1 + 1 := by omega
      have hobj : equalPDFObjects ((2 * m + 1) + 1 + 1) deref (.array [nestArray m r])
          (.array [nestArray m b])
          = equalPDFArrays ((2 * m + 1) + 1) deref [nestArray m r] [nestArray m b] := by
        simp [equalPDFObjects, h1, h2, typeOf]
      rw [hfuel]
      show equalPDFObjects ((2 * m + 1) + 1 + 1) deref (.array [nestArray m r])
          (.array [nestArray m b]) = _
      rw [hobj]
      simp only [equalPDFArrays, List.length_singleton, ne_eq, not_true_eq_false, if_false,
        arrayLoop, typeOf_nestArray m r b hty, ih]
      simp

theorem resolver_error_propagates_witness :
    equalPDFArrays 2 (tableResolver []) ([.integer 1] ++ .indirectRef 9 0 :: [.null])
        ([.integer 1] ++ .indirectRef 8 0 :: [.null])
      = some (.ret false (some (.resolution "object not found"))) :=
  (resolver_error_propagates (tableResolver []) 1 (.resolution "object not found")).2.1
    [.integer 1] [.integer 1] (.indirectRef 9 0) (.indirectRef 8 0) [.null] [.null] false
    rfl rfl (by decide) rfl (by decide)

/-- C16, as stated, fails: the resolver fails for a reference nested in both
arrays, and `equalPDFObjects` returns `false` with no error, because an earlier
pair of elements is unequal, or because the lengths differ. -/
theorem nested_resolver_error_not_returned :
    tableResolver [] (.indirectRef 9 0) = .error "object not found" ∧
    equalPDFObjects 3 (tableResolver []) (.array [.integer 1, .indirectRef 9 0])
        (.array [.integer 2, .indirectRef 9 0]) = some (.ret false none) ∧
    equalPDFObjects 3 (tableResolver []) (.array [.indirectRef 9 0])
        (.array [.indirectRef 9 0, .integer 1]) = some (.ret false none) :=
  ⟨rfl, by decide, by decide⟩

/-- When `equalPDFObjects` returns `true` with no error. -/
theorem equalPDFObjects_true_iff (f : Nat) (deref : Resolver) (a b : PDFObject) :
    equalPDFObjects (f + 1) deref a b = some (.ret true none) ↔
      ∃ a' b', deref a = .ok a' ∧ deref b = .ok b' ∧
        ((atomicShape (typeOf a') = true ∧ a' = b') ∨
          (∃ d1 d2, a' = .dict d1 ∧ b' = .dict d2 ∧
            equalPDFDicts f deref d1 d2 = some (.ret true none)) ∨
          (∃ d1 r1 d2 r2, a' = .streamDict d1 r1 ∧ b' = .streamDict d2 r2 ∧
            equalPDFStreamDicts f deref ⟨d1, r1⟩ ⟨d2, r2⟩ = some (.ret true none)) ∨
          (∃ x y, a' = .array x ∧ b' = .array y ∧
            equalPDFArrays f deref x y = some (.ret true none))) := by
  cases ha : deref a with
  | error e => simp [equalPDFObjects, ha]
  | ok a' =>
    cases hb : deref b with
    | error e => simp [equalPDFObjects, ha, hb]
    | ok b' =>
      by_cases hty : typeOf a' = typeOf b'
      · cases a' <;> cases b' <;> simp [typeOf] at hty <;>
          simp [equalPDFObjects, ha, hb, typeOf, atomicShape]
        constructor
        · intro h
          exact ⟨_, _, ⟨rfl, rfl⟩, _, _, ⟨rfl, rfl⟩, h⟩
        · rintro ⟨_, _, ⟨rfl, rfl⟩, _, _, ⟨rfl, rfl⟩, h⟩
          exact h
      · have hl : equalPDFObjects (f + 1) deref a b = some (.ret false none) := by
          simp [equalPDFObjects, ha, hb, hty]
        rw [hl]
        constructor
        · intro h
          simp at h
        · rintro ⟨x, y, hx, hy, h⟩
          cases hx
          cases hy
          exfalso
          apply hty
          rcases h with ⟨_, rfl⟩ | ⟨_, _, rfl, rfl, _⟩ | ⟨_, _, _, _, rfl, rfl, _⟩ |
            ⟨_, _, rfl, rfl, _⟩ <;> rfl

/-- When `equalFontNames` returns `true` with no error. -/
theorem equalFontNames_true_iff (deref : Resolver) (v1 v2 : PDFObject) :
    equalFontNames deref v1 v2 = .ret true none ↔
      ∃ n1 n2, deref v1 = .ok (.name n1) ∧ deref v2 = .ok (.name n2) ∧
        ignorePrefix n1 = ignorePrefix n2 := by
  cases h1 : deref v1 with
  | error e => simp [equalFontNames, h1]
  | ok a' =>
    cases h2 : deref v2 with
    | error e => cases a' <;> simp [equalFontNames, h1, h2]
    | ok b' => cases a' <;> cases b' <;> simp [equalFontNames, h1, h2]

/-- When the loop of `equalPDFArrays` returns `true` with no error after a pair
of elements. -/
theorem arrayLoop_cons_true_iff (cmp : PDFObject → PDFObject → Option Outcome)
    (o1 o2 : PDFObject) (r1 r2 : List PDFObject) :
    arrayLoop cmp (o1 :: r1) (o2 :: r2) = some (.ret true none) ↔
      typeOf o1 = typeOf o2 ∧ cmp o1 o2 = some (.ret true none) ∧
        arrayLoop cmp r1 r2 = some (.ret true none) := by
  by_cases hty : typeOf o1 = typeOf o2
  · cases hc : cmp o1 o2 with
    | none => simp [arrayLoop, hty, hc]
    | some r =>
      cases r with
      | runtimePanic => simp [arrayLoop, hty, hc]
      | ret ok err =>
        cases err with
        | some e => simp [arrayLoop, hty, hc]
        | none => cases ok <;> simp [arrayLoop, hty, hc]
  · simp [arrayLoop, hty]

/-- When `equalPDFStreamDicts` returns `true` with no error. -/
theorem equalPDFStreamDicts_true_iff (f : Nat) (deref : Resolver) (sd1 sd2 : PDFStreamDict) :
    equalPDFStreamDicts (f + 1) deref sd1 sd2 = some (.ret true none) ↔
      equalPDFDicts f deref sd1.dict sd2.dict = some (.ret true none) ∧
        sd1.raw.isSome = true ∧ sd1.raw.getD [] = sd2.raw.getD [] := by
  cases hd : equalPDFDicts f deref sd1.dict sd2.dict with
  | none => simp [equalPDFStreamDicts, hd]
  | some r =>
    cases r with
    | runtimePanic => simp [equalPDFStreamDicts, hd]
    | ret ok err =>
      cases err with
      | some e => simp [equalPDFStreamDicts, hd]
      | none =>
        cases ok with
        | false => simp [equalPDFStreamDicts, hd]
        | true =>
          cases hraw : sd1.raw with
          | none => simp [equalPDFStreamDicts, hd, hraw]
          | some b => simp [equalPDFStreamDicts, hd, hraw, bytesEqual]

/-- When `equalPDFDicts` returns `true` with no error. -/
theorem equalPDFDicts_succ_true_iff (f : Nat) (deref : Resolver) (d1 d2 : PDFDict) :
    equalPDFDicts (f + 1) deref d1 d2 = some (.ret true none) ↔
      dictLen d1 = dictLen d2 ∧
        dictLoop (fun x y => equalPDFObjects f deref x y) deref d2 d1
          = some (.ret true none) := by
  by_cases hlen : dictLen d1 = dictLen d2
  · simp [equalPDFDicts, hlen]
  · simp [equalPDFDicts, hlen]

/-- When `equalPDFArrays` returns `true` with no error. -/
theorem equalPDFArrays_succ_true_iff (f : Nat) (deref : Resolver) (x y : PDFArray) :
    equalPDFArrays (f + 1) deref x y = some (.ret true none) ↔
      x.length = y.length ∧
        arrayLoop (fun o1 o2 => equalPDFObjects f deref o1 o2) x y
          = some (.ret true none) := by
  by_cases hlen : x.length = y.length
  · simp [equalPDFArrays, hlen]
  · simp [equalPDFArrays, hlen]

/-- The loop of `equalPDFArrays` is transitive in its verdict `true` when `cmp`
is. -/
theorem arrayLoop_trans (cmp : PDFObject → PDFObject → Option Outcome)
    (hcmp : ∀ a b c, cmp a b = some (.ret true none) → cmp b c = some (.ret true none) →
      cmp a c = some (.ret true none))
    (x y z : List PDFObject) (hxy : x.length = y.length) (hyz : y.length = z.length)
    (h1 : arrayLoop cmp x y = some (.ret true none))
    (h2 : arrayLoop cmp y z = some (.ret true none)) :
    arrayLoop cmp x z = some (.ret true none) := by
  induction x generalizing y z with
  | nil => simp [arrayLoop]
  | cons o1 r1 ih =>
    cases y with
    | nil => simp at hxy
    | cons o2 r2 =>
      cases z with
      | nil => simp at hyz
      | cons o3 r3 =>
        rw [arrayLoop_cons_true_iff] at h1 h2 ⊢
        exact ⟨h1.1.trans h2.1, hcmp _ _ _ h1.2.1 h2.2.1,
          ih r2 r3 (by simpa using hxy) (by simpa using hyz) h1.2.2 h2.2.2⟩

/-- The loop of `equalPDFDicts` is transitive in its verdict `true` when `cmp`
is. -/
theorem dictLoop_trans (cmp : PDFObject → PDFObject → Option Outcome) (deref : Resolver)
    (hcmp : ∀ a b c, cmp a b = some (.ret true none) → cmp b c = some (.ret true none) →
      cmp a c = some (.ret true none))
    (d1 d2 d3 : PDFDict)
    (h1 : dictLoop cmp deref d2 d1 = some (.ret true none))
    (h2 : dictLoop cmp deref d3 d2 = some (.ret true none)) :
    dictLoop cmp deref d3 d1 = some (.ret true none) := by
  rw [dictLoop_true_iff] at h1 h2 ⊢
  intro kv hkv
  obtain ⟨v2, hv2, hc12⟩ := h1 kv hkv
  obtain ⟨v3, hv3, hc23⟩ := h2 (kv.1, v2) (dictLookup_mem d2 kv.1 v2 hv2)
  refine ⟨v3, hv3, ?_⟩
  simp only at hc23
  by_cases hf : isFontNameKey kv.1 = true
  · simp only [hf, if_true, Option.some.injEq] at hc12 hc23 ⊢
    rw [equalFontNames_true_iff] at hc12 hc23 ⊢
    obtain ⟨n1, n2, hn1, hn2, h12⟩ := hc12
    obtain ⟨n2', n3, hn2', hn3, h23⟩ := hc23
    rw [hn2] at hn2'
    cases hn2'
    exact ⟨n1, n3, hn1, hn3, h12.trans h23⟩
  · have hf' : isFontNameKey kv.1 = false := by simpa using hf
    simp only [hf', Bool.false_eq_true, if_false] at hc12 hc23 ⊢
    exact hcmp _ _ _ hc12 hc23

/-- Transitivity of the verdict `true` for the four recursive routines. -/
theorem equal_trans_all (deref : Resolver) (f : Nat) :
    (∀ a b c, equalPDFObjects f deref a b = some (.ret true none) →
      equalPDFObjects f deref b c = some (.ret true none) →
      equalPDFObjects f deref a c = some (.ret true none)) ∧
    (∀ a b c, equalPDFDicts f deref a b = some (.ret true none) →
      equalPDFDicts f deref b c = some (.ret true none) →
      equalPDFDicts f deref a c = some (.ret true none)) ∧
    (∀ a b c, equalPDFArrays f deref a b = some (.ret true none) →
      equalPDFArrays f deref b c = some (.ret true none) →
      equalPDFArrays f deref a c = some (.ret true none)) ∧
    (∀ a b c, equalPDFStreamDicts f deref a b = some (.ret true none) →
      equalPDFStreamDicts f deref b c = some (.ret true none) →
      equalPDFStreamDicts f deref a c = some (.ret true none)) := by
  induction f with
  | zero =>
    refine ⟨?_, ?_, ?_, ?_⟩ <;> intro a b c h <;>
      simp [equalPDFObjects, equalPDFDicts, equalPDFArrays, equalPDFStreamDicts] at h
  | succ f ih =>
    obtain ⟨ihO, ihD, ihA, ihS⟩ := ih
    refine ⟨?_, ?_, ?_, ?_⟩
    · intro a b c h1 h2
      rw [equalPDFObjects_true_iff] at h1 h2 ⊢
      obtain ⟨a', b', ha, hb, h1⟩ := h1
      obtain ⟨b'', c', hb', hc, h2⟩ := h2
      rw [hb] at hb'
      cases hb'
      refine ⟨a', c', ha, hc, ?_⟩
      rcases h1 with ⟨hat, rfl⟩ | ⟨d1, d2, rfl, rfl, h1⟩ | ⟨d1, r1, d2, r2, rfl, rfl, h1⟩ |
        ⟨x, y, rfl, rfl, h1⟩
      · rcases h2 with ⟨_, rfl⟩ | ⟨_, _, rfl, _, _⟩ | ⟨_, _, _, _, rfl, _, _⟩ | ⟨_, _, rfl, _, _⟩
        · exact Or.inl ⟨hat, rfl⟩
        · simp [typeOf, atomicShape] at hat
        · simp [typeOf, atomicShape] at hat
        · simp [typeOf, atomicShape] at hat
      · rcases h2 with ⟨hat, rfl⟩ | ⟨d2', d3, h, rfl, h2⟩ | ⟨_, _, _, _, h, _, _⟩ | ⟨_, _, h, _, _⟩
        · simp [typeOf, atomicShape] at hat
        · cases h
          exact Or.inr (Or.inl ⟨d1, d3, rfl, rfl, ihD _ _ _ h1 h2⟩)
        · cases h
        · cases h
      · rcases h2 with ⟨hat, rfl⟩ | ⟨_, _, h, _, _⟩ | ⟨d2', r2', d3, r3, h, rfl, h2⟩ | ⟨_, _, h, _, _⟩
        · simp [typeOf, atomicShape] at hat
        · cases h
        · cases h
          exact Or.inr (Or.inr (Or.inl ⟨d1, r1, d3, r3, rfl, rfl, ihS _ _ _ h1 h2⟩))
        · cases h
      · rcases h2 with ⟨hat, rfl⟩ | ⟨_, _, h, _, _⟩ | ⟨_, _, _, _, h, _, _⟩ | ⟨y', z, h, rfl, h2⟩
        · simp [typeOf, atomicShape] at hat
        · cases h
        · cases h
        · cases h
          exact Or.inr (Or.inr (Or.inr ⟨x, z, rfl, rfl, ihA _ _ _ h1 h2⟩))
    · intro a b c h1 h2
      rw [equalPDFDicts_succ_true_iff] at h1 h2 ⊢
      exact ⟨h1.1.trans h2.1, dictLoop_trans _ deref ihO a b c h1.2 h2.2⟩
    · intro a b c h1 h2
      rw [equalPDFArrays_succ_true_iff] at h1 h2 ⊢
      exact ⟨h1.1.trans h2.1, arrayLoop_trans _ ihO a b c h1.1 h2.1 h1.2 h2.2⟩
    · intro a b c h1 h2
      rw [equalPDFStreamDicts_true_iff] at h1 h2 ⊢
      exact ⟨ihD _ _ _ h1.1 h2.1, h1.2.1, h1.2.2.trans h2.2.2⟩

/-- C19: if `equalPDFObjects a b` and `equalPDFObjects b c` both return `true`
with no error, then so does `equalPDFObjects a c`; and the same holds for
`equalPDFArrays`, `equalPDFDicts` and `equalPDFStreamDicts`. -/
theorem equalPDFObjects_transitive (deref : Resolver) (fuel : Nat) (a b c : PDFObject)
    (hab : equalPDFObjects fuel deref a b = some (.ret true none))
    (hbc : equalPDFObjects fuel deref b c = some (.ret true none)) :
    equalPDFObjects fuel deref a c = some (.ret true none) ∧
    (∀ x y z, equalPDFArrays fuel deref x y = some (.ret true none) →
      equalPDFArrays fuel deref y z = some (.ret true none) →
      equalPDFArrays fuel deref x z = some (.ret true none)) ∧
    (∀ x y z, equalPDFDicts fuel deref x y = some (.ret true none) →
      equalPDFDicts fuel deref y z = some (.ret true none) →
      equalPDFDicts fuel deref x z = some (.ret true none)) ∧
    (∀ x y z, equalPDFStreamDicts fuel deref x y = some (.ret true none) →
      equalPDFStreamDicts fuel deref y z = some (.ret true none) →
      equalPDFStreamDicts fuel deref x z = some (.ret true none)) :=
  ⟨(equal_trans_all deref fuel).1 a b c hab hbc, (equal_trans_all deref fuel).2.2.1,
    (equal_trans_all deref fuel).2.1, (equal_trans_all deref fuel).2.2.2⟩

theorem equalPDFObjects_transitive_witness :
    equalPDFObjects 4 (tableResolver [(1, .name "F1")])
        (.array [.indirectRef 1 0, .dict [("BaseFont", .name "AAAAAA+Times")]])
        (.array [.indirectRef 1 1, .dict [("BaseFont", .name "Times")]])
      = some (.ret true none) :=
  (equalPDFObjects_transitive (tableResolver [(1, .name "F1")]) 4
    (.array [.indirectRef 1 0, .dict [("BaseFont", .name "AAAAAA+Times")]])
    (.array [.indirectRef 1 2, .dict [("BaseFont", .name "BBBBBB+Times")]])
    (.array [.indirectRef 1 1, .dict [("BaseFont", .name "Times")]])
    (by decide) (by decide)).1

/-- The loop of `equalPDFArrays` on an array and itself. -/
theorem arrayLoop_refl (cmp : PDFObject → PDFObject → Option Outcome) (l : List PDFObject)
    (h : ∀ o ∈ l, cmp o o = some (.ret true none)) :
    arrayLoop cmp l l = some (.ret true none) := by
  induction l with
  | nil => simp [arrayLoop]
  | cons o r ih =>
    rw [arrayLoop_cons_true_iff]
    exact ⟨rfl, h o (List.mem_cons_self _ _),
      ih (fun x hx => h x (List.mem_cons_of_mem _ hx))⟩

/-- The loop of `equalPDFDicts` on a well-formed dictionary and itself. -/
theorem dictLoop_refl (cmp : PDFObject → PDFObject → Option Outcome) (deref : Resolver)
    (wf : PDFObject → Bool) (d : PDFDict) (hwf : wellFormedEntries deref wf d = true)
    (h : ∀ v, wf v = true → cmp v v = some (.ret true none)) :
    dictLoop cmp deref d d = some (.ret true none) := by
  simp only [wellFormedEntries, Bool.and_eq_true, decide_eq_true_eq, List.all_eq_true] at hwf
  rw [dictLoop_true_iff]
  intro kv hkv
  refine ⟨kv.2, dictLookup_of_mem d hwf.1 kv.1 kv.2 hkv, ?_⟩
  have hv := hwf.2 kv hkv
  by_cases hf : isFontNameKey kv.1 = true
  · simp only [hf, if_true] at hv ⊢
    rw [Option.some.injEq, equalFontNames_true_iff]
    simp only [resolvesToName] at hv
    split at hv
    · rename_i n hn
      exact ⟨n, n, hn, hn, rfl⟩
    · simp at hv
  · have hf' : isFontNameKey kv.1 = false := by simpa using hf
    simp only [hf', Bool.false_eq_true, if_false] at hv ⊢
    exact h _ hv

/-- Reflexivity on the values that are well formed down to depth `n`. -/
theorem equalPDFObjects_refl_aux (deref : Resolver) (n : Nat) :
    ∀ v, wellFormed n deref v = true → ∀ fuel, 3 * n ≤ fuel →
      equalPDFObjects fuel deref v v = some (.ret true none) := by
  induction n with
  | zero =>
    intro v h
    simp [wellFormed] at h
  | succ n ih =>
    intro v hwf fuel hfuel
    obtain ⟨g, rfl⟩ : ∃ g, fuel = g + 1 := ⟨fuel - 1, by omega⟩
    obtain ⟨g1, rfl⟩ : ∃ g1, g = g1 + 1 := ⟨g - 1, by omega⟩
    obtain ⟨g2, rfl⟩ : ∃ g2, g1 = g2 + 1 := ⟨g1 - 1, by omega⟩
    have hg2 : 3 * n ≤ g2 := by omega
    have hcmp : ∀ (k : Nat), 3 * n ≤ k → ∀ v, wellFormed n deref v = true →
        (fun x y => equalPDFObjects k deref x y) v v = some (.ret true none) :=
      fun k hk v hv => ih v hv k hk
    have hdict : ∀ (k : Nat), 3 * n ≤ k → ∀ d,
        wellFormedEntries deref (wellFormed n deref) d = true →
        equalPDFDicts (k + 1) deref d d = some (.ret true none) := by
      intro k hk d hd
      rw [equalPDFDicts_succ_true_iff]
      exact ⟨rfl, dictLoop_refl _ deref _ d hd (hcmp k hk)⟩
    rw [equalPDFObjects_true_iff]
    simp only [wellFormed] at hwf
    cases hr : deref v with
    | error e => simp [hr] at hwf
    | ok r =>
      simp only [hr] at hwf
      refine ⟨r, r, rfl, rfl, ?_⟩
      cases r with
      | null => simp at hwf
      | indirectRef a b => simp at hwf
      | dict d =>
        exact Or.inr (Or.inl ⟨d, d, rfl, rfl, hdict (g2 + 1) (by omega) d hwf⟩)
      | streamDict d raw =>
        simp only [Bool.and_eq_true] at hwf
        refine Or.inr (Or.inr (Or.inl ⟨d, raw, d, raw, rfl, rfl, ?_⟩))
        rw [equalPDFStreamDicts_true_iff]
        exact ⟨hdict g2 hg2 d hwf.2, hwf.1, rfl⟩
      | array l =>
        refine Or.inr (Or.inr (Or.inr ⟨l, l, rfl, rfl, ?_⟩))
        rw [equalPDFArrays_succ_true_iff]
        simp only [List.all_eq_true] at hwf
        exact ⟨rfl, arrayLoop_refl _ l (fun o ho => hcmp (g2 + 1) (by omega) o (hwf o ho))⟩
      | name s => exact Or.inl ⟨rfl, rfl⟩
      | stringLiteral s => exact Or.inl ⟨rfl, rfl⟩
      | hexLiteral s => exact Or.inl ⟨rfl, rfl⟩
      | integer i => exact Or.inl ⟨rfl, rfl⟩
      | float x => exact Or.inl ⟨rfl, rfl⟩
      | boolean b => exact Or.inl ⟨rfl, rfl⟩

/-- C13: for a value `v` that is well formed down to some depth `n` (every
reference met resolves, to one of the nine known variants; dictionaries have
distinct keys; stream payloads are loaded; the values under `BaseFont`,
`FontName` and `Name` resolve to Names), `equalPDFObjects v v` returns `true`
with no error, with any fuel of at least `3 * n`. -/
theorem equalPDFObjects_reflexive (deref : Resolver) (n : Nat) (v : PDFObject)
    (hwf : wellFormed n deref v = true) (fuel : Nat) (hfuel : 3 * n ≤ fuel) :
    equalPDFObjects fuel deref v v = some (.ret true none) :=
  equalPDFObjects_refl_aux deref n v hwf fuel hfuel

theorem equalPDFObjects_reflexive_witness :
    wellFormed 4
        (tableResolver [(1, .streamDict [("Length", .integer 2)] (some [72, 105])),
          (2, .name "ABCDEF+Helvetica")])
        (.dict [("Type", .name "Font"), ("BaseFont", .indirectRef 2 0),
          ("Kids", .array [.indirectRef 1 0, .float 1, .boolean true])]) = true ∧
    equalPDFObjects 12
        (tableResolver [(1, .streamDict [("Length", .integer 2)] (some [72, 105])),
          (2, .name "ABCDEF+Helvetica")])
        (.dict [("Type", .name "Font"), ("BaseFont", .indirectRef 2 0),
          ("Kids", .array [.indirectRef 1 0, .float 1, .boolean true])])
        (.dict [("Type", .name "Font"), ("BaseFont", .indirectRef 2 0),
          ("Kids", .array [.indirectRef 1 0, .float 1, .boolean true])])
      = some (.ret true none) :=
  ⟨by decide,
   equalPDFObjects_reflexive
    (tableResolver [(1, .streamDict [("Length", .integer 2)] (some [72, 105])),
      (2, .name "ABCDEF+Helvetica")]) 4
    (.dict [("Type", .name "Font"), ("BaseFont", .indirectRef 2 0),
      ("Kids", .array [.indirectRef 1 0, .float 1, .boolean true])])
    (by decide) 12 (by decide)⟩

/-- What `DistinctKeys` says of a value that resolves to a dictionary. -/
theorem DistinctKeys.dict {deref : Resolver} {a : PDFObject} {d : PDFDict}
    (h : DistinctKeys deref a) (ha : deref a = .ok (.dict d)) :
    (dictKeys d).Nodup ∧ ∀ kv ∈ d, DistinctKeys deref kv.2 := by
  constructor
  · have := h 1
    simp [distinctKeysTo, ha] at this
    exact this
  · intro kv hkv n
    have := h (n + 1)
    simp only [distinctKeysTo, ha, Bool.and_eq_true, List.all_eq_true] at this
    exact this.2 kv hkv

/-- What `DistinctKeys` says of a value that resolves to a stream dictionary. -/
theorem DistinctKeys.streamDict {deref : Resolver} {a : PDFObject} {d : PDFDict}
    {raw : Option (List Nat)}
    (h : DistinctKeys deref a) (ha : deref a = .ok (.streamDict d raw)) :
    (dictKeys d).Nodup ∧ ∀ kv ∈ d, DistinctKeys deref kv.2 := by
  constructor
  · have := h 1
    simp [distinctKeysTo, ha] at this
    exact this
  · intro kv hkv n
    have := h (n + 1)
    simp only [distinctKeysTo, ha, Bool.and_eq_true, List.all_eq_true] at this
    exact this.2 kv hkv

/-- What `DistinctKeys` says of a value that resolves to an array. -/
theorem DistinctKeys.array {deref : Resolver} {a : PDFObject} {l : List PDFObject}
    (h : DistinctKeys deref a) (ha : deref a = .ok (.array l)) :
    ∀ o ∈ l, DistinctKeys deref o := by
  intro o ho n
  have := h (n + 1)
  simp only [distinctKeysTo, ha, List.all_eq_true] at this
  exact this o ho

/-- The loop of `equalPDFArrays` with the two arrays exchanged. -/
theorem arrayLoop_swap (cmp : PDFObject → PDFObject → Option Outcome)
    (x y : List PDFObject) (hlen : x.length = y.length)
    (hcmp : ∀ o1 ∈ x, ∀ o2 ∈ y, cmp o1 o2 = some (.ret true none) →
      cmp o2 o1 = some (.ret true none) ∨
        cmp o2 o1 = some (.ret false (some .streamDictNotLoaded)))
    (h : arrayLoop cmp x y = some (.ret true none)) :
    arrayLoop cmp y x = some (.ret true none) ∨
      arrayLoop cmp y x = some (.ret false (some .streamDictNotLoaded)) := by
  induction x generalizing y with
  | nil =>
    cases y with
    | nil => left; simp [arrayLoop]
    | cons o2 r2 => simp at hlen
  | cons o1 r1 ih =>
    cases y with
    | nil => simp at hlen
    | cons o2 r2 =>
      rw [arrayLoop_cons_true_iff] at h
      obtain ⟨hty, hc, hrest⟩ := h
      rcases hcmp o1 (List.mem_cons_self _ _) o2 (List.mem_cons_self _ _) hc with hs | hs
      · have := ih r2 (by simpa using hlen)
          (fun a ha b hb => hcmp a (List.mem_cons_of_mem _ ha) b (List.mem_cons_of_mem _ hb))
          hrest
        simpa [arrayLoop, hty, hs] using this
      · right
        simp [arrayLoop, hty, hs]

/-- The loop of `equalPDFDicts` over entries that all have a partner whose
comparison gives `true` or the error "stream dict not loaded". -/
theorem dictLoop_true_or_notLoaded (cmp : PDFObject → PDFObject → Option Outcome)
    (deref : Resolver) (d1 : PDFDict) (l : List (String × PDFObject))
    (h : ∀ kv ∈ l, ∃ v1, dictLookup d1 kv.1 = some v1 ∧
      ((if isFontNameKey kv.1 then some (equalFontNames deref kv.2 v1) else cmp kv.2 v1)
          = some (.ret true none) ∨
        (if isFontNameKey kv.1 then some (equalFontNames deref kv.2 v1) else cmp kv.2 v1)
          = some (.ret false (some .streamDictNotLoaded)))) :
    dictLoop cmp deref d1 l = some (.ret true none) ∨
      dictLoop cmp deref d1 l = some (.ret false (some .streamDictNotLoaded)) := by
  induction l with
  | nil => left; simp [dictLoop]
  | cons kv rest ih =>
    obtain ⟨k, v2⟩ := kv
    obtain ⟨v1, hl, hc⟩ := h (k, v2) (List.mem_cons_self _ _)
    have hrest := ih (fun kv hkv => h kv (List.mem_cons_of_mem _ hkv))
    simp only at hl hc
    by_cases hf : isFontNameKey k = true
    · simp only [hf, if_true, Option.some.injEq] at hc
      rcases hc with hc | hc
      · simpa [dictLoop, hl, hf, hc] using hrest
      · right
        simp [dictLoop, hl, hf, hc]
    · have hf' : isFontNameKey k = false := by simpa using hf
      simp only [hf', Bool.false_eq_true, if_false] at hc
      rcases hc with hc | hc
      · simpa [dictLoop, hl, hf', hc] using hrest
      · right
        simp [dictLoop, hl, hf', hc]

/-- The loop of `equalPDFDicts` with the two dictionaries exchanged. -/
theorem dictLoop_swap (cmp : PDFObject → PDFObject → Option Outcome) (deref : Resolver)
    (d1 d2 : PDFDict) (hn1 : (dictKeys d1).Nodup) (hn2 : (dictKeys d2).Nodup)
    (hlen : dictLen d1 = dictLen d2)
    (hcmp : ∀ kv1 ∈ d1, ∀ kv2 ∈ d2, cmp kv1.2 kv2.2 = some (.ret true none) →
      cmp kv2.2 kv1.2 = some (.ret true none) ∨
        cmp kv2.2 kv1.2 = some (.ret false (some .streamDictNotLoaded)))
    (h : dictLoop cmp deref d2 d1 = some (.ret true none)) :
    dictLoop cmp deref d1 d2 = some (.ret true none) ∨
      dictLoop cmp deref d1 d2 = some (.ret false (some .streamDictNotLoaded)) := by
  rw [dictLoop_true_iff] at h
  have hsub : dictKeys d1 ⊆ dictKeys d2 := by
    intro k hk
    obtain ⟨kv, hkv, rfl⟩ := List.mem_map.mp hk
    obtain ⟨v2, hv2, _⟩ := h kv hkv
    exact List.mem_map.mpr ⟨(kv.1, v2), dictLookup_mem d2 kv.1 v2 hv2, rfl⟩
  have hperm : (dictKeys d1).Perm (dictKeys d2) := by
    apply (List.subperm_of_subset hn1 hsub).perm_of_length_le
    simp only [dictKeys, List.length_map]
    simp only [dictLen] at hlen
    omega
  apply dictLoop_true_or_notLoaded
  intro kv hkv
  have hk1 : kv.1 ∈ dictKeys d1 := hperm.mem_iff.mpr (List.mem_map_of_mem Prod.fst hkv)
  obtain ⟨v1, hv1⟩ := dictLookup_isSome d1 kv.1 hk1
  refine ⟨v1, hv1, ?_⟩
  have hmem1 : (kv.1, v1) ∈ d1 := dictLookup_mem d1 kv.1 v1 hv1
  obtain ⟨v2, hv2, hc⟩ := h (kv.1, v1) hmem1
  simp only at hv2 hc
  rw [dictLookup_of_mem d2 hn2 kv.1 kv.2 hkv] at hv2
  cases hv2
  by_cases hf : isFontNameKey kv.1 = true
  · left
    simp only [hf, if_true, Option.some.injEq] at hc ⊢
    rw [equalFontNames_true_iff] at hc ⊢
    obtain ⟨n1, n2, hn1', hn2', heq⟩ := hc
    exact ⟨n2, n1, hn2', hn1', heq.symm⟩
  · have hf' : isFontNameKey kv.1 = false := by simpa using hf
    simp only [hf', Bool.false_eq_true, if_false] at hc ⊢
    exact hcmp (kv.1, v1) hmem1 kv hkv hc

/-- The verdict `true` with the arguments exchanged, for the four recursive
routines: it stays `true`, unless the comparison meets a stream whose payload
is not loaded on the side that has become the first. -/
theorem equal_swap_all (deref : Resolver) (f : Nat) :
    (∀ a b, DistinctKeys deref a → DistinctKeys deref b →
      equalPDFObjects f deref a b = some (.ret true none) →
      equalPDFObjects f deref b a = some (.ret true none) ∨
        equalPDFObjects f deref b a = some (.ret false (some .streamDictNotLoaded))) ∧
    (∀ d1 d2 : PDFDict, (dictKeys d1).Nodup → (dictKeys d2).Nodup →
      (∀ kv ∈ d1, DistinctKeys deref kv.2) → (∀ kv ∈ d2, DistinctKeys deref kv.2) →
      equalPDFDicts f deref d1 d2 = some (.ret true none) →
      equalPDFDicts f deref d2 d1 = some (.ret true none) ∨
        equalPDFDicts f deref d2 d1 = some (.ret false (some .streamDictNotLoaded))) ∧
    (∀ x y : PDFArray, (∀ o ∈ x, DistinctKeys deref o) → (∀ o ∈ y, DistinctKeys deref o) →
      equalPDFArrays f deref x y = some (.ret true none) →
      equalPDFArrays f deref y x = some (.ret true none) ∨
        equalPDFArrays f deref y x = some (.ret false (some .streamDictNotLoaded))) ∧
    (∀ s1 s2 : PDFStreamDict, (dictKeys s1.dict).Nodup → (dictKeys s2.dict).Nodup →
      (∀ kv ∈ s1.dict, DistinctKeys deref kv.2) → (∀ kv ∈ s2.dict, DistinctKeys deref kv.2) →
      equalPDFStreamDicts f deref s1 s2 = some (.ret true none) →
      equalPDFStreamDicts f deref s2 s1 = some (.ret true none) ∨
        equalPDFStreamDicts f deref s2 s1 = some (.ret false (some .streamDictNotLoaded))) := by
  induction f with
  | zero =>
    refine ⟨?_, ?_, ?_, ?_⟩
    · intro a b _ _ h; simp [equalPDFObjects] at h
    · intro a b _ _ _ _ h; simp [equalPDFDicts] at h
    · intro a b _ _ h; simp [equalPDFArrays] at h
    · intro a b _ _ _ _ h; simp [equalPDFStreamDicts] at h
  | succ f ih =>
    obtain ⟨ihO, ihD, ihA, ihS⟩ := ih
    refine ⟨?_, ?_, ?_, ?_⟩
    · intro a b hka hkb h
      rw [equalPDFObjects_true_iff] at h
      obtain ⟨a', b', ha, hb, h⟩ := h
      rcases h with ⟨hat, rfl⟩ | ⟨d1, d2, rfl, rfl, h⟩ | ⟨d1, r1, d2, r2, rfl, rfl, h⟩ |
        ⟨x, y, rfl, rfl, h⟩
      · left
        rw [equalPDFObjects_true_iff]
        exact ⟨a', a', hb, ha, Or.inl ⟨hat, rfl⟩⟩
      · have hsw : equalPDFObjects (f + 1) deref b a = equalPDFDicts f deref d2 d1 := by
          simp [equalPDFObjects, ha, hb, typeOf]
        rw [hsw]
        exact ihD d1 d2 (hka.dict ha).1 (hkb.dict hb).1 (hka.dict ha).2 (hkb.dict hb).2 h
      · have hsw : equalPDFObjects (f + 1) deref b a
            = equalPDFStreamDicts f deref ⟨d2, r2⟩ ⟨d1, r1⟩ := by
          simp [equalPDFObjects, ha, hb, typeOf]
        rw [hsw]
        exact ihS ⟨d1, r1⟩ ⟨d2, r2⟩ (hka.streamDict ha).1 (hkb.streamDict hb).1
          (hka.streamDict ha).2 (hkb.streamDict hb).2 h
      · have hsw : equalPDFObjects (f + 1) deref b a = equalPDFArrays f deref y x := by
          simp [equalPDFObjects, ha, hb, typeOf]
        rw [hsw]
        exact ihA x y (hka.array ha) (hkb.array hb) h
    · intro d1 d2 hn1 hn2 hk1 hk2 h
      rw [equalPDFDicts_succ_true_iff] at h
      have hsw : equalPDFDicts (f + 1) deref d2 d1
          = dictLoop (fun x y => equalPDFObjects f deref x y) deref d1 d2 := by
        simp [equalPDFDicts, h.1]
      rw [hsw]
      exact dictLoop_swap _ deref d1 d2 hn1 hn2 h.1
        (fun kv1 h1 kv2 h2 hc => ihO _ _ (hk1 kv1 h1) (hk2 kv2 h2) hc) h.2
    · intro x y hx hy h
      rw [equalPDFArrays_succ_true_iff] at h
      have hsw : equalPDFArrays (f + 1) deref y x
          = arrayLoop (fun o1 o2 => equalPDFObjects f deref o1 o2) y x := by
        simp [equalPDFArrays, h.1]
      rw [hsw]
      exact arrayLoop_swap _ x y h.1
        (fun o1 h1 o2 h2 hc => ihO _ _ (hx o1 h1) (hy o2 h2) hc) h.2
    · intro s1 s2 hn1 hn2 hk1 hk2 h
      rw [equalPDFStreamDicts_true_iff] at h
      obtain ⟨hd, hraw, hbytes⟩ := h
      rcases ihD _ _ hn1 hn2 hk1 hk2 hd with hs | hs
      · cases hr2 : s2.raw with
        | none =>
          right
          simp [equalPDFStreamDicts, hs, hr2]
        | some bytes =>
          left
          rw [equalPDFStreamDicts_true_iff]
          exact ⟨hs, by simp [hr2], hbytes.symm⟩
      · right
        simp [equalPDFStreamDicts, hs]

/-- A result that is `true`, or the error "stream dict not loaded", is not `false`
with no error. -/
theorem ne_false_of_true_or_notLoaded {r : Option Outcome}
    (h : r = some (.ret true none) ∨ r = some (.ret false (some .streamDictNotLoaded))) :
    r ≠ some (.ret false none) := by
  rcases h with h | h <;> simp [h]

/-- The loop of `equalPDFArrays` returns the same with a comparison that returns
at least what `cmp` returns. -/
theorem arrayLoop_mono (cmp cmp' : PDFObject → PDFObject → Option Outcome)
    (hcmp : ∀ o1 o2 r, cmp o1 o2 = some r → cmp' o1 o2 = some r)
    (x y : List PDFObject) (r : Outcome) (h : arrayLoop cmp x y = some r) :
    arrayLoop cmp' x y = some r := by
  induction x generalizing y with
  | nil => simpa [arrayLoop] using h
  | cons o1 r1 ih =>
    cases y with
    | nil => simpa [arrayLoop] using h
    | cons o2 r2 =>
      by_cases hty : typeOf o1 = typeOf o2
      · cases hc : cmp o1 o2 with
        | none => simp [arrayLoop, hty, hc] at h
        | some r0 =>
          have hc' := hcmp _ _ _ hc
          cases r0 with
          | runtimePanic => simpa [arrayLoop, hty, hc, hc'] using h
          | ret ok err =>
            cases err with
            | some e => simpa [arrayLoop, hty, hc, hc'] using h
            | none =>
              cases ok with
              | false => simpa [arrayLoop, hty, hc, hc'] using h
              | true =>
                simp only [arrayLoop, hty, hc, hc', ne_eq, not_true_eq_false, if_false,
                  Option.isSome_none, Bool.false_eq_true, Bool.not_true] at h ⊢
                exact ih r2 h
      · simpa [arrayLoop, hty] using h

/-- The loop of `equalPDFDicts` returns the same with a comparison that returns
at least what `cmp` returns. -/
theorem dictLoop_mono (cmp cmp' : PDFObject → PDFObject → Option Outcome) (deref : Resolver)
    (hcmp : ∀ o1 o2 r, cmp o1 o2 = some r → cmp' o1 o2 = some r)
    (d2 : PDFDict) (l : List (String × PDFObject)) (r : Outcome)
    (h : dictLoop cmp deref d2 l = some r) : dictLoop cmp' deref d2 l = some r := by
  induction l with
  | nil => simpa [dictLoop] using h
  | cons kv rest ih =>
    obtain ⟨k, v1⟩ := kv
    cases hl : dictLookup d2 k with
    | none => simpa [dictLoop, hl] using h
    | some v2 =>
      by_cases hf : isFontNameKey k = true
      · cases hc : equalFontNames deref v1 v2 with
        | runtimePanic => simpa [dictLoop, hl, hf, hc] using h
        | ret ok err =>
          cases err with
          | some e => simpa [dictLoop, hl, hf, hc] using h
          | none =>
            cases ok with
            | false => simpa [dictLoop, hl, hf, hc] using h
            | true =>
              simp only [dictLoop, hl, hf, hc, if_true, Option.isSome_none,
                Bool.false_eq_true, if_false, Bool.not_true] at h ⊢
              exact ih h
      · have hf' : isFontNameKey k = false := by simpa using hf
        cases hc : cmp v1 v2 with
        | none => simp [dictLoop, hl, hf', hc] at h
        | some r0 =>
          have hc' := hcmp _ _ _ hc
          cases r0 with
          | runtimePanic => simpa [dictLoop, hl, hf', hc, hc'] using h
          | ret ok err =>
            cases err with
            | some e => simpa [dictLoop, hl, hf', hc, hc'] using h
            | none =>
              cases ok with
              | false => simpa [dictLoop, hl, hf', hc, hc'] using h
              | true =>
                simp only [dictLoop, hl, hf', hc, hc', Bool.false_eq_true, if_false,
                  Option.isSome_none, Bool.not_true] at h ⊢
                exact ih h

/-- One more unit of fuel does not change what a routine returns. -/
theorem fuel_succ_all (deref : Resolver) (f : Nat) :
    (∀ a b r, equalPDFObjects f deref a b = some r →
      equalPDFObjects (f + 1) deref a b = some r) ∧
    (∀ a b r, equalPDFDicts f deref a b = some r →
      equalPDFDicts (f + 1) deref a b = some r) ∧
    (∀ a b r, equalPDFArrays f deref a b = some r →
      equalPDFArrays (f + 1) deref a b = some r) ∧
    (∀ a b r, equalPDFStreamDicts f deref a b = some r →
      equalPDFStreamDicts (f + 1) deref a b = some r) := by
  induction f with
  | zero =>
    refine ⟨?_, ?_, ?_, ?_⟩ <;> intro a b r h <;>
      simp [equalPDFObjects, equalPDFDicts, equalPDFArrays, equalPDFStreamDicts] at h
  | succ f ih =>
    obtain ⟨ihO, ihD, ihA, ihS⟩ := ih
    refine ⟨?_, ?_, ?_, ?_⟩
    · intro a b r h
      cases ha : deref a with
      | error e => simpa [equalPDFObjects, ha] using h
      | ok a' =>
        cases hb : deref b with
        | error e => simpa [equalPDFObjects, ha, hb] using h
        | ok b' =>
          by_cases hty : typeOf a' = typeOf b'
          · cases a' <;> cases b' <;> simp [typeOf] at hty <;>
              simp only [equalPDFObjects, ha, hb, typeOf, ne_eq, not_true_eq_false,
                if_false] at h ⊢ <;>
              first
                | exact h
                | exact ihD _ _ _ h
                | exact ihS _ _ _ h
                | exact ihA _ _ _ h
          · simpa [equalPDFObjects, ha, hb, hty] using h
    · intro a b r h
      by_cases hlen : dictLen a = dictLen b
      · simp only [equalPDFDicts, hlen, ne_eq, not_true_eq_false, if_false] at h ⊢
        exact dictLoop_mono _ _ deref ihO _ _ _ h
      · simpa [equalPDFDicts, hlen] using h
    · intro a b r h
      by_cases hlen : a.length = b.length
      · simp only [equalPDFArrays, hlen, ne_eq, not_true_eq_false, if_false] at h ⊢
        exact arrayLoop_mono _ _ ihO _ _ _ h
      · simpa [equalPDFArrays, hlen] using h
    · intro a b r h
      cases hd : equalPDFDicts f deref a.dict b.dict with
      | none => simp [equalPDFStreamDicts, hd] at h
      | some r0 =>
        have hd' := ihD _ _ _ hd
        simpa [equalPDFStreamDicts, hd, hd'] using h

/-- What `equalPDFObjects` returns with some fuel, it returns with any larger
fuel. -/
theorem equalPDFObjects_fuel_mono (deref : Resolver) (f g : Nat) (hfg : f ≤ g)
    (a b : PDFObject) (r : Outcome) (h : equalPDFObjects f deref a b = some r) :
    equalPDFObjects g deref a b = some r := by
  induction g with
  | zero =>
    have : f = 0 := by omega
    subst this
    exact h
  | succ g ih =>
    by_cases hle : f ≤ g
    · exact (fuel_succ_all deref g).1 _ _ _ (ih hle)
    · have : f = g + 1 := by omega
      subst this
      exact h

/-- What `PayloadsLoaded` says of a value that resolves to a dictionary. -/
theorem PayloadsLoaded.loadedDict {deref : Resolver} {a : PDFObject} {d : PDFDict}
    (h : PayloadsLoaded deref a) (ha : deref a = .ok (.dict d)) :
    ∀ kv ∈ d, PayloadsLoaded deref kv.2 := by
  intro kv hkv n
  have := h (n + 1)
  simp only [payloadsLoadedTo, ha, List.all_eq_true] at this
  exact this kv hkv

/-- What `PayloadsLoaded` says of a value that resolves to a stream dictionary. -/
theorem PayloadsLoaded.loadedStreamDict {deref : Resolver} {a : PDFObject} {d : PDFDict}
    {raw : Option (List Nat)}
    (h : PayloadsLoaded deref a) (ha : deref a = .ok (.streamDict d raw)) :
    raw.isSome = true ∧ ∀ kv ∈ d, PayloadsLoaded deref kv.2 := by
  constructor
  · have := h 1
    simp only [payloadsLoadedTo, ha, Bool.and_eq_true] at this
    exact this.1
  · intro kv hkv n
    have := h (n + 1)
    simp only [payloadsLoadedTo, ha, Bool.and_eq_true, List.all_eq_true] at this
    exact this.2 kv hkv

/-- What `PayloadsLoaded` says of a value that resolves to an array. -/
theorem PayloadsLoaded.loadedArray {deref : Resolver} {a : PDFObject} {l : List PDFObject}
    (h : PayloadsLoaded deref a) (ha : deref a = .ok (.array l)) :
    ∀ o ∈ l, PayloadsLoaded deref o := by
  intro o ho n
  have := h (n + 1)
  simp only [payloadsLoadedTo, ha, List.all_eq_true] at this
  exact this o ho

/-- The loop of `equalPDFArrays` with the two arrays exchanged, when `cmp` keeps
its verdict `true` on the pairs of elements exchanged. -/
theorem arrayLoop_swap_true (cmp : PDFObject → PDFObject → Option Outcome)
    (x y : List PDFObject) (hlen : x.length = y.length)
    (hcmp : ∀ o1 ∈ x, ∀ o2 ∈ y, cmp o1 o2 = some (.ret true none) →
      cmp o2 o1 = some (.ret true none))
    (h : arrayLoop cmp x y = some (.ret true none)) :
    arrayLoop cmp y x = some (.ret true none) := by
  induction x generalizing y with
  | nil =>
    cases y with
    | nil => simp [arrayLoop]
    | cons o2 r2 => simp at hlen
  | cons o1 r1 ih =>
    cases y with
    | nil => simp at hlen
    | cons o2 r2 =>
      rw [arrayLoop_cons_true_iff] at h ⊢
      obtain ⟨hty, hc, hrest⟩ := h
      exact ⟨hty.symm, hcmp o1 (List.mem_cons_self _ _) o2 (List.mem_cons_self _ _) hc,
        ih r2 (by simpa using hlen)
          (fun a ha b hb => hcmp a (List.mem_cons_of_mem _ ha) b (List.mem_cons_of_mem _ hb))
          hrest⟩

/-- The loop of `equalPDFDicts` with the two dictionaries exchanged, when `cmp`
keeps its verdict `true` on the pairs of values exchanged. -/
theorem dictLoop_swap_true (cmp : PDFObject → PDFObject → Option Outcome) (deref : Resolver)
    (d1 d2 : PDFDict) (hn1 : (dictKeys d1).Nodup) (hn2 : (dictKeys d2).Nodup)
    (hlen : dictLen d1 = dictLen d2)
    (hcmp : ∀ kv1 ∈ d1, ∀ kv2 ∈ d2, cmp kv1.2 kv2.2 = some (.ret true none) →
      cmp kv2.2 kv1.2 = some (.ret true none))
    (h : dictLoop cmp deref d2 d1 = some (.ret true none)) :
    dictLoop cmp deref d1 d2 = some (.ret true none) := by
  rw [dictLoop_true_iff] at h ⊢
  have hsub : dictKeys d1 ⊆ dictKeys d2 := by
    intro k hk
    obtain ⟨kv, hkv, rfl⟩ := List.mem_map.mp hk
    obtain ⟨v2, hv2, _⟩ := h kv hkv
    exact List.mem_map.mpr ⟨(kv.1, v2), dictLookup_mem d2 kv.1 v2 hv2, rfl⟩
  have hperm : (dictKeys d1).Perm (dictKeys d2) := by
    apply (List.subperm_of_subset hn1 hsub).perm_of_length_le
    simp only [dictKeys, List.length_map]
    simp only [dictLen] at hlen
    omega
  intro kv hkv
  have hk1 : kv.1 ∈ dictKeys d1 := hperm.mem_iff.mpr (List.mem_map_of_mem Prod.fst hkv)
  obtain ⟨v1, hv1⟩ := dictLookup_isSome d1 kv.1 hk1
  refine ⟨v1, hv1, ?_⟩
  have hmem1 : (kv.1, v1) ∈ d1 := dictLookup_mem d1 kv.1 v1 hv1
  obtain ⟨v2, hv2, hc⟩ := h (kv.1, v1) hmem1
  simp only at hv2 hc
  rw [dictLookup_of_mem d2 hn2 kv.1 kv.2 hkv] at hv2
  cases hv2
  by_cases hf : isFontNameKey kv.1 = true
  · simp only [hf, if_true, Option.some.injEq] at hc ⊢
    rw [equalFontNames_true_iff] at hc ⊢
    obtain ⟨n1, n2, hn1', hn2', heq⟩ := hc
    exact ⟨n2, n1, hn2', hn1', heq.symm⟩
  · have hf' : isFontNameKey kv.1 = false := by simpa using hf
    simp only [hf', Bool.false_eq_true, if_false] at hc ⊢
    exact hcmp (kv.1, v1) hmem1 kv hkv hc

/-- The verdict `true` with the arguments exchanged, for the four recursive
routines, when the payloads of the streams that become the first argument are
loaded: it stays `true`. -/
theorem equal_swap_loaded (deref : Resolver) (f : Nat) :
    (∀ a b, DistinctKeys deref a → DistinctKeys deref b → PayloadsLoaded deref b →
      equalPDFObjects f deref a b = some (.ret true none) →
      equalPDFObjects f deref b a = some (.ret true none)) ∧
    (∀ d1 d2 : PDFDict, (dictKeys d1).Nodup → (dictKeys d2).Nodup →
      (∀ kv ∈ d1, DistinctKeys deref kv.2) → (∀ kv ∈ d2, DistinctKeys deref kv.2) →
      (∀ kv ∈ d2, PayloadsLoaded deref kv.2) →
      equalPDFDicts f deref d1 d2 = some (.ret true none) →
      equalPDFDicts f deref d2 d1 = some (.ret true none)) ∧
    (∀ x y : PDFArray, (∀ o ∈ x, DistinctKeys deref o) → (∀ o ∈ y, DistinctKeys deref o) →
      (∀ o ∈ y, PayloadsLoaded deref o) →
      equalPDFArrays f deref x y = some (.ret true none) →
      equalPDFArrays f deref y x = some (.ret true none)) ∧
    (∀ s1 s2 : PDFStreamDict, (dictKeys s1.dict).Nodup → (dictKeys s2.dict).Nodup →
      (∀ kv ∈ s1.dict, DistinctKeys deref kv.2) → (∀ kv ∈ s2.dict, DistinctKeys deref kv.2) →
      s2.raw.isSome = true → (∀ kv ∈ s2.dict, PayloadsLoaded deref kv.2) →
      equalPDFStreamDicts f deref s1 s2 = some (.ret true none) →
      equalPDFStreamDicts f deref s2 s1 = some (.ret true none)) := by
  induction f with
  | zero =>
    refine ⟨?_, ?_, ?_, ?_⟩
    · intro a b _ _ _ h; simp [equalPDFObjects] at h
    · intro a b _ _ _ _ _ h; simp [equalPDFDicts] at h
    · intro a b _ _ _ h; simp [equalPDFArrays] at h
    · intro a b _ _ _ _ _ _ h; simp [equalPDFStreamDicts] at h
  | succ f ih =>
    obtain ⟨ihO, ihD, ihA, ihS⟩ := ih
    refine ⟨?_, ?_, ?_, ?_⟩
    · intro a b hka hkb hlb h
      rw [equalPDFObjects_true_iff] at h ⊢
      obtain ⟨a', b', ha, hb, h⟩ := h
      refine ⟨b', a', hb, ha, ?_⟩
      rcases h with ⟨hat, rfl⟩ | ⟨d1, d2, rfl, rfl, h⟩ | ⟨d1, r1, d2, r2, rfl, rfl, h⟩ |
        ⟨x, y, rfl, rfl, h⟩
      · exact Or.inl ⟨hat, rfl⟩
      · exact Or.inr (Or.inl ⟨d2, d1, rfl, rfl,
          ihD d1 d2 (hka.dict ha).1 (hkb.dict hb).1 (hka.dict ha).2 (hkb.dict hb).2
            (hlb.loadedDict hb) h⟩)
      · exact Or.inr (Or.inr (Or.inl ⟨d2, r2, d1, r1, rfl, rfl,
          ihS ⟨d1, r1⟩ ⟨d2, r2⟩ (hka.streamDict ha).1 (hkb.streamDict hb).1
            (hka.streamDict ha).2 (hkb.streamDict hb).2 (hlb.loadedStreamDict hb).1
            (hlb.loadedStreamDict hb).2 h⟩))
      · exact Or.inr (Or.inr (Or.inr ⟨y, x, rfl, rfl,
          ihA x y (hka.array ha) (hkb.array hb) (hlb.loadedArray hb) h⟩))
    · intro d1 d2 hn1 hn2 hk1 hk2 hl2 h
      rw [equalPDFDicts_succ_true_iff] at h ⊢
      exact ⟨h.1.symm, dictLoop_swap_true _ deref d1 d2 hn1 hn2 h.1
        (fun kv1 h1 kv2 h2 hc => ihO _ _ (hk1 kv1 h1) (hk2 kv2 h2) (hl2 kv2 h2) hc) h.2⟩
    · intro x y hx hy hly h
      rw [equalPDFArrays_succ_true_iff] at h ⊢
      exact ⟨h.1.symm, arrayLoop_swap_true _ x y h.1
        (fun o1 h1 o2 h2 hc => ihO _ _ (hx o1 h1) (hy o2 h2) (hly o2 h2) hc) h.2⟩
    · intro s1 s2 hn1 hn2 hk1 hk2 hraw2 hl2 h
      rw [equalPDFStreamDicts_true_iff] at h ⊢
      exact ⟨ihD _ _ hn1 hn2 hk1 hk2 hl2 h.1, hraw2, h.2.2.symm⟩

/-- C14, as amended: for values in which every dictionary has distinct keys,
whenever `equalPDFObjects a b` and `equalPDFObjects b a` both return with no
error they return the same boolean, so that exchanging the arguments never
turns `true` into `false` or `false` into `true`, and the same holds for
`equalPDFDicts` on two dictionaries, of which only the keys of the first are
iterated; and when the payloads of all streams are loaded, `equalPDFObjects a b`
returns `true` with no error exactly when `equalPDFObjects b a` does. -/
theorem equalPDFObjects_swap_verdict (deref : Resolver) (fuel : Nat) (a b : PDFObject)
    (ha : DistinctKeys deref a) (hb : DistinctKeys deref b) :
    (PayloadsLoaded deref a → PayloadsLoaded deref b →
      (equalPDFObjects fuel deref a b = some (.ret true none) ↔
        equalPDFObjects fuel deref b a = some (.ret true none))) ∧
    (∀ ok ok', equalPDFObjects fuel deref a b = some (.ret ok none) →
      equalPDFObjects fuel deref b a = some (.ret ok' none) → ok = ok') ∧
    (equalPDFObjects fuel deref a b = some (.ret true none) →
      equalPDFObjects fuel deref b a ≠ some (.ret false none)) ∧
    (equalPDFObjects fuel deref a b = some (.ret false none) →
      equalPDFObjects fuel deref b a ≠ some (.ret true none)) ∧
    (∀ d1 d2 : PDFDict, (dictKeys d1).Nodup → (dictKeys d2).Nodup →
      (∀ kv ∈ d1, DistinctKeys deref kv.2) → (∀ kv ∈ d2, DistinctKeys deref kv.2) →
      (equalPDFDicts fuel deref d1 d2 = some (.ret true none) →
        equalPDFDicts fuel deref d2 d1 ≠ some (.ret false none)) ∧
      (equalPDFDicts fuel deref d1 d2 = some (.ret false none) →
        equalPDFDicts fuel deref d2 d1 ≠ some (.ret true none))) := by
  have hall := equal_swap_all deref fuel
  have hload := equal_swap_loaded deref fuel
  have h1 : equalPDFObjects fuel deref a b = some (.ret true none) →
      equalPDFObjects fuel deref b a ≠ some (.ret false none) :=
    fun h => ne_false_of_true_or_notLoaded (hall.1 a b ha hb h)
  have h2 : equalPDFObjects fuel deref a b = some (.ret false none) →
      equalPDFObjects fuel deref b a ≠ some (.ret true none) :=
    fun h h' => ne_false_of_true_or_notLoaded (hall.1 b a hb ha h') h
  refine ⟨?_, ?_, h1, h2, ?_⟩
  · intro hla hlb
    exact ⟨fun h => hload.1 a b ha hb hlb h, fun h => hload.1 b a hb ha hla h⟩
  · intro ok ok' hab hba
    cases ok with
    | true =>
      cases ok' with
      | true => rfl
      | false => exact absurd hba (h1 hab)
    | false =>
      cases ok' with
      | false => rfl
      | true => exact absurd hba (h2 hab)
  · intro d1 d2 hn1 hn2 hk1 hk2
    refine ⟨fun h => ne_false_of_true_or_notLoaded (hall.2.1 d1 d2 hn1 hn2 hk1 hk2 h), ?_⟩
    intro h h'
    exact ne_false_of_true_or_notLoaded (hall.2.1 d2 d1 hn2 hn1 hk2 hk1 h') h

theorem equalPDFObjects_swap_verdict_witness :
    equalPDFObjects 6
        (tableResolver [(1, .streamDict [("Length", .integer 1)] (some [7]))])
        (.dict [("S", .indirectRef 1 0), ("A", .integer 1)])
        (.dict [("A", .integer 1), ("S", .indirectRef 1 0)])
      = some (.ret true none) :=
  ((equalPDFObjects_swap_verdict
      (tableResolver [(1, .streamDict [("Length", .integer 1)] (some [7]))]) 6
      (.dict [("A", .integer 1), ("S", .indirectRef 1 0)])
      (.dict [("S", .indirectRef 1 0), ("A", .integer 1)])
      (by
        intro n
        rcases n with _ | _ | _ | n <;>
          simp [distinctKeysTo, tableResolver, dictKeys, List.lookup])
      (by
        intro n
        rcases n with _ | _ | _ | n <;>
          simp [distinctKeysTo, tableResolver, dictKeys, List.lookup])).1
    (by
      intro n
      rcases n with _ | _ | _ | n <;>
        simp [payloadsLoadedTo, tableResolver, List.lookup])
    (by
      intro n
      rcases n with _ | _ | _ | n <;>
        simp [payloadsLoadedTo, tableResolver, List.lookup])).mp (by decide)

/-- C14, as stated, fails: with the arguments exchanged the comparison of two
dictionaries with the same keys returns `false` with no error in one order and
an error in the other, because each call returns at the first entry of its first
argument that fails: the error of the resolver, or the error "type cast
problem" for a value under `BaseFont` that is not a Name. -/
theorem equalPDFObjects_swap_false_vs_error :
    equalPDFObjects 3 (tableResolver [])
        (.dict [("A", .integer 1), ("B", .indirectRef 9 0)])
        (.dict [("B", .integer 5), ("A", .integer 2)]) = some (.ret false none) ∧
    equalPDFObjects 3 (tableResolver [])
        (.dict [("B", .integer 5), ("A", .integer 2)])
        (.dict [("A", .integer 1), ("B", .indirectRef 9 0)])
      = some (.ret false (some (.resolution "object not found"))) ∧
    equalPDFDicts 2 (tableResolver [])
        [("A", .integer 1), ("BaseFont", .integer 5)]
        [("BaseFont", .integer 5), ("A", .integer 2)] = some (.ret false none) ∧
    equalPDFDicts 2 (tableResolver [])
        [("BaseFont", .integer 5), ("A", .integer 2)]
        [("A", .integer 1), ("BaseFont", .integer 5)]
      = some (.ret false (some .typeCastProblem)) :=
  ⟨by decide, by decide, by decide, by decide⟩

end Pdfcpu
